import Mathlib

/-!
# Smart-cache environment (`cache_env_new.cpp`): embedding and verified properties

The C++ classes `WindowElement`, `FileStats`, `Stats`, `cache` and `env` are
embedded as Lean structures and their member functions as Lean functions.

Conventions of the embedding:

* `float` values are exact rationals (`ℚ`): rounding is not modelled;
* `int` values are unbounded integers (`Int`): overflow is not modelled;
* `std::vector` is `List`; `unordered_map<int, T>` is an association list
  `List (Int × T)` with pairwise distinct keys, whose order is the (unspecified)
  iteration order of the container; `unordered_set<int>` is a `List Int`;
* a member function that mutates the object returns the new object;
* the generator of the C library (`srand`, `rand`) is a parameter (`Generator`);
* a call has an `Outcome`: it returns (`ok`), it has undefined behaviour
  (`undefined`: an out-of-range read, dereferencing an end iterator, an integer
  division by zero, erasing through an iterator of another container), or the
  step budget given to a loop was used up before it exited (`unfinished`).
-/

namespace SmartCache

/-! ## Outcomes -/

/-- Result of running a piece of the program. -/
inductive Outcome (α : Type) where
  | ok (a : α) : Outcome α
  | undefined : Outcome α
  | unfinished : Outcome α
deriving DecidableEq, Repr

/-- Sequencing: the continuation runs only when the first part returned. -/
def Outcome.bind {α β : Type} (x : Outcome α) (f : α → Outcome β) : Outcome β :=
  match x with
  | .ok a => f a
  | .undefined => .undefined
  | .unfinished => .unfinished

/-! ## Globals (lines 17-27) -/

def it_mean_size : ℚ := 3397.512895452965

def it_stdev_size : ℚ := 2186.2590964080405

def it_limsup_size : ℚ := it_mean_size + it_stdev_size

def it_liminf_size : ℚ := it_mean_size - it_stdev_size

def it_delta_size : ℚ := it_limsup_size - it_liminf_size

/-! ## `WindowElement` (lines 41-79) -/

structure WindowElement where
  counter : Int
  cur_values : List ℚ
  next_values : List ℚ
  reward : ℚ
  action : Int
deriving DecidableEq, Repr

/-- The constructor `WindowElement(c, c_v, r, a)`; `next_values` starts empty. -/
def WindowElement.new (c : Int) (c_v : List ℚ) (r : ℚ) (a : Int) : WindowElement :=
  { counter := c, cur_values := c_v, next_values := [], reward := r, action := a }

/-- Member `WindowElement::concat_with_next_values`: appends six values to the
`next_values` of the receiver and returns the changed receiver together with
`cur_values ++ [action] ++ [reward] ++ next_values`.  Reading `cur_values[0..3]`
of a shorter vector is undefined. -/
def WindowElement.concat_with_next_values (w : WindowElement) (occupancy hit_rate : ℚ) :
    Outcome (WindowElement × List ℚ) :=
  match w.cur_values[0]?, w.cur_values[1]?, w.cur_values[2]?, w.cur_values[3]? with
  | some v0, some v1, some v2, some v3 =>
    let next := w.next_values ++ [v0, v1 + 1, v2, v3, occupancy / 100, hit_rate]
    let reward_vector : List ℚ := [w.reward]
    let action_vector : List ℚ := [(w.action : ℚ)]
    .ok ({ w with next_values := next },
         w.cur_values ++ action_vector ++ reward_vector ++ next)
  | _, _, _, _ => .undefined

/-! ## `FileStats`, `Stats` (lines 81-113) -/

structure FileStats where
  _size : ℚ
  _hit : Int
  _miss : Int
  _last_request : Int
  _datatype : Int
deriving DecidableEq, Repr

structure Stats where
  _files : List (Int × FileStats)
deriving DecidableEq, Repr

/-! ## `cache` (lines 115-220) -/

structure cache where
  _cached_files : List Int
  _cached_files_keys : List Int
  _daily_rewards_add : List ℚ
  _daily_rewards_evict : List ℚ
  _stats : Stats
  _size : ℚ
  _max_size : ℚ
  _hit : Int
  _miss : Int
  _daily_anomalous_CPUeff_counter : Int
  _written_data : ℚ
  _deleted_data : ℚ
  _read_data : ℚ
  _dailyReadOnHit : ℚ
  _dailyReadOnMiss : ℚ
  _daily_reward : ℚ
  _CPUeff : ℚ
  _h_watermark : ℚ
  _l_watermark : ℚ
deriving DecidableEq, Repr

/-- The constructor `cache()`. -/
def cache.new : cache :=
  { _cached_files := [], _cached_files_keys := [], _daily_rewards_add := [],
    _daily_rewards_evict := [], _stats := { _files := [] },
    _size := 0, _max_size := 0, _hit := 0, _miss := 0,
    _daily_anomalous_CPUeff_counter := 0,
    _written_data := 0, _deleted_data := 0, _read_data := 0,
    _dailyReadOnHit := 0, _dailyReadOnMiss := 0, _daily_reward := 0,
    _CPUeff := 0, _h_watermark := 95, _l_watermark := 0 }

/-- Member `cache::capacity`: `(_size / _max_size) * 100.` in `float` arithmetic. -/
def cache.capacity (c : cache) : ℚ := (c._size / c._max_size) * 100

/-- Member `cache::hit_rate`: `_hit` and `_miss` are `int`, so `_hit / (_hit + _miss)`
is the truncating integer division, converted to `float` on return; a zero
divisor is undefined. -/
def cache.hit_rate (c : cache) : Outcome ℚ :=
  if c._hit ≠ 0 then
    if c._hit + c._miss = 0 then .undefined
    else .ok ((Int.tdiv c._hit (c._hit + c._miss) : Int) : ℚ)
  else .ok 0

/-! ## `unordered_map<int, T>` and `unordered_set<int>` -/

/-- The call `m.find(k)`: the value stored under `k`, or `none` for `m.end()`. -/
def umap_find {β : Type} : List (Int × β) → Int → Option β
  | [], _ => none
  | (k1, v) :: rest, k => if k1 = k then some v else umap_find rest k

/-- The assignment `m[k] = v`: overwrites the value of `k`, or adds the entry when `k`
is absent. -/
def umap_set {β : Type} : List (Int × β) → Int → β → List (Int × β)
  | [], k, v => [(k, v)]
  | (k1, v1) :: rest, k, v =>
    if k1 = k then (k1, v) :: rest else (k1, v1) :: umap_set rest k v

/-- The call `m.erase(k)`. -/
def umap_erase {β : Type} (m : List (Int × β)) (k : Int) : List (Int × β) :=
  m.filter (fun p => decide (p.1 ≠ k))

/-- The call `s.insert(k)` on an `unordered_set<int>`. -/
def uset_insert (s : List Int) (k : Int) : List Int :=
  if k ∈ s then s else s ++ [k]

/-- The keys of a map. -/
def umap_keys {β : Type} (m : List (Int × β)) : List Int := m.map Prod.fst

/-! ## `env` (lines 222-301)

The members that only serve the date range, the output files and the unused
totals (`_startMonth`, `_endMonth`, `_directory`, `_out_directory`, `_out_name`,
`_cache_size`, `_size_tot`, `_idx_start`, `_idx_end`, `_curDay`, `_totalDays`,
`_df_length`) are left out: no member function embedded here reads them. -/

structure env where
  _time_span_add : Int
  _time_span_evict : Int
  _purge_delta : Int
  _output_activation : Int
  _seed : Int
  _adding_or_evicting : Int
  _curRequest : Int
  _curRequest_from_start : Int
  _cached_files_index : Int
  _cache : cache
  _request_window_elements : List (Int × List WindowElement)
  _eviction_window_elements : List (Int × List WindowElement)
  _curValues : List ℚ
  _add_memory_vector : List (List ℚ)
  _evict_memory_vector : List (List ℚ)
deriving DecidableEq, Repr

/-- The constructor `env(...)` (lines 233-288), without the date-range part. -/
def env.new (time_span_add time_span_evict purge_delta : Int) (output_activation : String)
    (cache_size : ℚ) (seed : Int) : env :=
  { _time_span_add := time_span_add,
    _time_span_evict := time_span_evict,
    _purge_delta := purge_delta,
    _output_activation := if output_activation = "sigmoid" then 0 else 1,
    _seed := seed,
    _adding_or_evicting := 0,
    _curRequest := -1,
    _curRequest_from_start := -1,
    _cached_files_index := -1,
    _cache := { cache.new with _max_size := cache_size },
    _request_window_elements := [],
    _eviction_window_elements := [],
    _curValues := [],
    _add_memory_vector := [],
    _evict_memory_vector := [] }

/-- Member `env::set_curValues` (lines 477-485). -/
def env.set_curValues (e : env) (size frequency recency datatype occupancy hit_rate : ℚ) : env :=
  { e with _curValues := [size, frequency, recency, datatype, occupancy, hit_rate] }

/-! ## Reward resolution -/

/-- The size coefficient of `update_windows_getting_eventual_rewards_accumulate`
(lines 307-312). -/
def size_coeff (output_activation : Int) (size : ℚ) : ℚ :=
  if output_activation = 1 then size
  else if size ≤ it_liminf_size then 0
  else if size ≥ it_limsup_size then 1
  else (size - it_liminf_size) / it_delta_size

/-- The final reward of an invalidated element (lines 321-328, 356-363, 406-413
and 441-448, which are the same statement). -/
def resolved_reward (reward coeff : ℚ) (action : Int) : ℚ :=
  if reward ≠ 0 then
    if action = 0 then reward * coeff else -reward * coeff
  else
    if action = 0 then -1 * coeff else 1 * coeff

/-! ## `env::update_windows_getting_eventual_rewards_accumulate` (lines 303-388) -/

/-- The loop of lines 317-338 over the pending list of the current file, from
index `i`.  `obj` is a copy of the element, so `obj.reward += 1` (line 335)
changes no stored element; line 336 appends to the list being traversed. -/
def update_add_loop (e : env) (action : Int) (coeff : ℚ) :
    Nat → Nat → List WindowElement → List ℚ → List (List ℚ) →
    Outcome (List WindowElement × List ℚ × List (List ℚ))
  | fuel, i, vec, daily, memory =>
    match vec[i]? with
    | none => .ok (vec, daily, memory)
    | some obj =>
      match fuel with
      | 0 => .unfinished
      | fuel + 1 =>
        if e._curRequest_from_start - obj.counter ≥ e._time_span_add then
          let obj1 := { obj with reward := resolved_reward obj.reward coeff obj.action }
          e._cache.hit_rate.bind fun hr =>
          (obj1.concat_with_next_values e._cache.capacity hr).bind fun res =>
          update_add_loop e action coeff fuel (i + 1) (vec.eraseIdx i)
            (daily ++ [obj1.reward]) (memory ++ [res.2])
        else
          update_add_loop e action coeff fuel (i + 1)
            (vec ++ [WindowElement.new e._curRequest_from_start e._curValues 0 action])
            daily memory

/-- The loop of lines 352-372 over the evict-window list of the current file.
An element that is not invalidated only has a copy of it changed (line 371); an
invalidated one is erased from the evict list through an iterator of the add
list (line 367), which is undefined. -/
def update_evict_scan (e : env) : List WindowElement → Outcome Unit
  | [] => .ok ()
  | obj :: rest =>
    if e._curRequest_from_start - obj.counter ≥ e._time_span_evict then .undefined
    else update_evict_scan e rest

/-- The member function; `fuel` bounds the steps of the loop of lines 317-338. -/
def env.update_windows_getting_eventual_rewards_accumulate (fuel : Nat) (e : env)
    (curFilename action : Int) : Outcome env :=
  if e._adding_or_evicting = 0 then
    match e._curValues[0]? with
    | none => .undefined
    | some size =>
      let coeff := size_coeff e._output_activation size
      let added : Outcome env :=
        match umap_find e._request_window_elements curFilename with
        | some vec =>
          (update_add_loop e action coeff fuel 0 vec e._cache._daily_rewards_add
            e._add_memory_vector).bind fun res =>
          .ok { e with
                _request_window_elements :=
                  umap_set e._request_window_elements curFilename res.1,
                _cache := { e._cache with _daily_rewards_add := res.2.1 },
                _add_memory_vector := res.2.2 }
        | none =>
          .ok { e with
                _request_window_elements :=
                  umap_set e._request_window_elements curFilename
                    [WindowElement.new e._curRequest_from_start e._curValues 0 action] }
      added.bind fun e1 =>
        match umap_find e1._eviction_window_elements curFilename with
        | some vec => (update_evict_scan e1 vec).bind fun _ => .ok e1
        | none => .ok e1
  else if e._adding_or_evicting = 1 then
    let to_add := WindowElement.new e._curRequest_from_start e._curValues 0 action
    match umap_find e._eviction_window_elements curFilename with
    | some _ =>
      .ok { e with
            _eviction_window_elements :=
              umap_set e._eviction_window_elements curFilename [to_add] }
    | none => .undefined
  else .ok e

/-! ## `env::look_for_invalidated_add_evict_accumulate` (lines 390-463) -/

/-- The locals and members a sweep loop writes: the function-level local
`coeff`, the set `toDelete`, the daily rewards and the replay buffer. -/
structure SweepAcc where
  coeff : ℚ
  toDelete : List Int
  daily : List ℚ
  memory : List (List ℚ)
deriving DecidableEq, Repr

/-- Lines 398-403: in linear mode the function-level `coeff` is assigned; the
three other branches each declare a new local `float coeff`, which ends with
its statement, and leave the function-level one as it was. -/
def sweep_coeff_add (output_activation : Int) (size coeff : ℚ) : ℚ :=
  if output_activation = 1 then size
  else if size ≤ it_liminf_size then coeff
  else if size ≥ it_limsup_size then coeff
  else coeff

/-- Lines 433-438: all four branches declare a new local `float coeff`. -/
def sweep_coeff_evict (output_activation : Int) (size coeff : ℚ) : ℚ :=
  if output_activation = 1 then coeff
  else if size ≤ it_liminf_size then coeff
  else if size ≥ it_limsup_size then coeff
  else coeff

/-- The inner loop of lines 394-422 (add window) and 429-458 (evict window) over
the pending list `vec` of file `key`, from index `i`.  `H` is the horizon and
`upd` the statement that sets `coeff`.  The list shrinks by one on an erase and
`i` advances in every round. -/
def sweep_inner (e : env) (H : Int) (upd : ℚ → ℚ → ℚ) (key : Int) :
    Nat → Nat → List WindowElement → SweepAcc → Outcome (List WindowElement × SweepAcc)
  | fuel, i, vec, acc =>
    match vec[i]? with
    | none => .ok (vec, acc)
    | some obj =>
      match fuel with
      | 0 => .unfinished
      | fuel + 1 =>
        match obj.cur_values[0]? with
        | none => .undefined
        | some size =>
          let coeff := upd size acc.coeff
          if e._curRequest_from_start - obj.counter > H then
            let obj1 := { obj with reward := resolved_reward obj.reward coeff obj.action }
            e._cache.hit_rate.bind fun hr =>
            (obj1.concat_with_next_values e._cache.capacity hr).bind fun res =>
            let vec1 := vec.eraseIdx i
            sweep_inner e H upd key fuel (i + 1) vec1
              { coeff := coeff,
                toDelete := if vec1.length = 0 then uset_insert acc.toDelete key
                            else acc.toDelete,
                daily := acc.daily ++ [obj1.reward],
                memory := acc.memory ++ [res.2] }
          else
            sweep_inner e H upd key fuel (i + 1) vec { acc with coeff := coeff }

/-- The outer loop over the entries of a window; the inner loop gets as many
steps as the list is long. -/
def sweep_window (e : env) (H : Int) (upd : ℚ → ℚ → ℚ) :
    List (Int × List WindowElement) → SweepAcc →
    Outcome (List (Int × List WindowElement) × SweepAcc)
  | [], acc => .ok ([], acc)
  | (key, vec) :: rest, acc =>
    (sweep_inner e H upd key vec.length 0 vec acc).bind fun r1 =>
    (sweep_window e H upd rest r1.2).bind fun r2 =>
    .ok ((key, r1.1) :: r2.1, r2.2)

/-- The member function.  `coeff0` is the indeterminate value the uninitialised
local `coeff` (line 392) holds on entry; `toDelete` is not cleared between the
two windows (its second declaration, line 427, is commented out). -/
def env.look_for_invalidated_add_evict_accumulate (e : env) (coeff0 : ℚ) : Outcome env :=
  (sweep_window e e._time_span_add (sweep_coeff_add e._output_activation)
    e._request_window_elements
    { coeff := coeff0, toDelete := [], daily := e._cache._daily_rewards_add,
      memory := e._add_memory_vector }).bind fun a =>
  (sweep_window e e._time_span_evict (sweep_coeff_evict e._output_activation)
    e._eviction_window_elements
    { coeff := a.2.coeff, toDelete := a.2.toDelete, daily := e._cache._daily_rewards_evict,
      memory := e._evict_memory_vector }).bind fun b =>
  .ok { e with
        _request_window_elements := a.2.toDelete.foldl umap_erase a.1,
        _eviction_window_elements := b.2.toDelete.foldl umap_erase b.1,
        _cache := { e._cache with _daily_rewards_add := a.2.daily,
                                  _daily_rewards_evict := b.2.daily },
        _add_memory_vector := a.2.memory,
        _evict_memory_vector := b.2.memory }

/-! ## `Stats::get_or_set` and the member functions of `cache` (lines 93-112, 148-219) -/

/-- The value-initialised `FileStats` that `operator[]` stores for an absent key. -/
def FileStats.zero : FileStats :=
  { _size := 0, _hit := 0, _miss := 0, _last_request := 0, _datatype := 0 }

/-- The expression `m[k]` read as a value: the stored value, or, when `k` is
absent, a value-initialised one that is inserted first. -/
def umap_index (m : List (Int × FileStats)) (k : Int) : List (Int × FileStats) × FileStats :=
  match umap_find m k with
  | some v => (m, v)
  | none => (umap_set m k FileStats.zero, FileStats.zero)

/-- Member `Stats::get_or_set` (lines 93-112). -/
def Stats.get_or_set (s : Stats) (filename : Int) (size : ℚ) (datatype request : Int) :
    Stats × FileStats :=
  let found : Bool := (umap_find s._files filename).isSome
  if found = false then
    let stats : FileStats :=
      { _size := size, _hit := 0, _miss := 0, _last_request := request, _datatype := datatype }
    ({ _files := umap_set s._files filename stats }, stats)
  else
    let r := umap_index s._files filename
    ({ _files := r.1 }, r.2)

/-- Member `cache::before_request` (lines 148-156). -/
def cache.before_request (c : cache) (filename : Int) (hit : Bool) (size : ℚ)
    (datatype request : Int) : cache × FileStats :=
  let r := c._stats.get_or_set filename size datatype request
  let stats := r.2
  ({ c with _stats := r.1 },
   if hit = true then { stats with _hit := stats._hit + 1 }
   else { stats with _miss := stats._miss + 1 })

/-- Member `cache::update_policy` (lines 157-165).  The returned value is `none`
when control reaches the end of the function without a `return` statement (a
miss with an action other than 0): the value the caller gets is then not
defined. -/
def cache.update_policy (c : cache) (filename : Int) (file_stats : FileStats) (hit : Bool)
    (action : Int) : cache × Option Bool :=
  let c1 := { c with _stats := { _files := umap_set c._stats._files filename file_stats } }
  if hit = false ∧ action = 0 then
    ({ c1 with _cached_files := uset_insert c1._cached_files filename }, some true)
  else if hit = true then (c1, some false)
  else (c1, none)

/-- Member `cache::after_request` (lines 166-180). -/
def cache.after_request (c : cache) (fileStats : FileStats) (hit added : Bool) : cache :=
  let c1 :=
    if hit = true then
      { c with _hit := c._hit + 1, _dailyReadOnHit := c._dailyReadOnHit + fileStats._size }
    else
      { c with _miss := c._miss + 1, _dailyReadOnMiss := c._dailyReadOnMiss + fileStats._size }
  let c2 :=
    if added = true then
      { c1 with _size := c1._size + fileStats._size,
                _written_data := c1._written_data + fileStats._size }
    else c1
  { c2 with _read_data := c2._read_data + fileStats._size }

/-- The loop shared by the three mean functions (lines 187-190, 200-203 and
213-216): for every cached file the stats entry is read with `operator[]` and
`term` of it is added to `mean`; `counter` counts the files. -/
def mean_loop (term : FileStats → ℚ) :
    List Int → List (Int × FileStats) → ℚ → Int → List (Int × FileStats) × ℚ × Int
  | [], files, mean, counter => (files, mean, counter)
  | filename :: rest, files, mean, counter =>
    let r := umap_index files filename
    mean_loop term rest r.1 (mean + term r.2) (counter + 1)

/-- The common shape of the three mean functions: 0 for an empty cached-file
set, else the accumulated sum over the counter. -/
def cache.mean_of (c : cache) (term : FileStats → ℚ) : cache × ℚ :=
  if c._cached_files.length = 0 then (c, 0)
  else
    let r := mean_loop term c._cached_files c._stats._files 0 0
    ({ c with _stats := { _files := r.1 } }, r.2.1 / (r.2.2 : ℚ))

/-- Member `cache::_get_mean_recency` (lines 181-193). -/
def cache._get_mean_recency (c : cache) (curRequest_from_start : Int) : cache × ℚ :=
  c.mean_of (fun st => ((curRequest_from_start - st._last_request : Int) : ℚ))

/-- Member `cache::_get_mean_frequency` (lines 194-206). -/
def cache._get_mean_frequency (c : cache) (_curRequest_from_start : Int) : cache × ℚ :=
  c.mean_of (fun st => ((st._hit + st._miss : Int) : ℚ))

/-- Member `cache::_get_mean_size` (lines 207-219). -/
def cache._get_mean_size (c : cache) (_curRequest_from_start : Int) : cache × ℚ :=
  c.mean_of (fun st => st._size)

/-! ## `env::purge`, `env::get_random_batch`, `env::check`, `env::get_stats` (lines 465-534) -/

/-- The first loop of `env::purge` (lines 467-472): collects the keys to delete. -/
def purge_collect (e : env) : List (Int × FileStats) → List Int → List Int
  | [], toDelete => toDelete
  | elem :: rest, toDelete =>
    if e._curRequest_from_start - elem.2._last_request > e._purge_delta
        ∧ elem.1 ∉ e._cache._cached_files then
      purge_collect e rest (uset_insert toDelete elem.1)
    else purge_collect e rest toDelete

/-- Member `env::purge` (lines 465-475). -/
def env.purge (e : env) : env :=
  let toDelete := purge_collect e e._cache._stats._files []
  { e with
    _cache := { e._cache with
                _stats := { _files := toDelete.foldl umap_erase e._cache._stats._files } } }

/-- The generator of the C library behind `srand` and `rand`, which is not part
of the repository: `srand seed` is the generator state after seeding, `rand g`
the non-negative number drawn in state `g` and the state after the draw. -/
structure Generator (σ : Type) where
  srand : Int → σ
  rand : σ → Nat × σ

/-- A loop of `env::get_random_batch` (lines 495-501 and 504-510) with `n`
rounds to go: draws a number, reduces it modulo `size` and appends
`source[randomNumber]` to the batch.  A zero `size` and an index outside
`source` are undefined. -/
def random_batch_loop {σ : Type} (G : Generator σ) (source : List (List ℚ)) (size : Nat) :
    Nat → σ → List (List ℚ) → Outcome (List (List ℚ) × σ)
  | 0, g, batch => .ok (batch, g)
  | n + 1, g, batch =>
    let r := G.rand g
    if size = 0 then .undefined
    else
      match source[r.1 % size]? with
      | none => .undefined
      | some record => random_batch_loop G source size n r.2 (batch ++ [record])

/-- Member `env::get_random_batch` (lines 487-514); the generator state left by
the call is returned with the batch.  In evict mode the index is reduced modulo
the size of `_evict_memory_vector` and used on `_add_memory_vector` (line 506). -/
def env.get_random_batch {σ : Type} (G : Generator σ) (e : env) (batch_size : Int) :
    Outcome (List (List ℚ) × σ) :=
  let g0 := G.srand e._seed
  let first : Outcome (List (List ℚ) × σ) :=
    if e._adding_or_evicting = 0 then
      random_batch_loop G e._add_memory_vector e._add_memory_vector.length
        batch_size.toNat g0 []
    else .ok ([], g0)
  first.bind fun r =>
    if e._adding_or_evicting = 1 then
      random_batch_loop G e._add_memory_vector e._evict_memory_vector.length
        batch_size.toNat r.2 r.1
    else .ok r

/-- Member `env::check` (lines 516-522). -/
def env.check (e : env) (filename : Int) : Bool :=
  (umap_find e._cache._stats._files filename).isSome

/-- Member `env::check_in_cache` (lines 524-530). -/
def env.check_in_cache (e : env) (filename : Int) : Bool :=
  decide (filename ∈ e._cache._cached_files)

/-- Member `env::get_stats` (lines 532-534): `_cache._stats._files[filename]`. -/
def env.get_stats (e : env) (filename : Int) : env × FileStats :=
  let r := umap_index e._cache._stats._files filename
  ({ e with _cache := { e._cache with _stats := { _files := r.1 } } }, r.2)

/-! ## Call sequences of the driver -/

/-- Line 488, `srand(_seed)`: whatever state the generator was in, it is in the
seeded state afterwards. -/
def srand_call {σ : Type} (G : Generator σ) (seed : Int) (_before : σ) : σ := G.srand seed

/-- Member `env::get_random_batch` called while the generator of the C library is
in state `g` (lines 487-514, with the generator state an explicit argument). -/
def env.get_random_batch_from {σ : Type} (G : Generator σ) (e : env) (g : σ)
    (batch_size : Int) : Outcome (List (List ℚ) × σ) :=
  let g0 := srand_call G e._seed g
  let first : Outcome (List (List ℚ) × σ) :=
    if e._adding_or_evicting = 0 then
      random_batch_loop G e._add_memory_vector e._add_memory_vector.length
        batch_size.toNat g0 []
    else .ok ([], g0)
  first.bind fun r =>
    if e._adding_or_evicting = 1 then
      random_batch_loop G e._add_memory_vector e._evict_memory_vector.length
        batch_size.toNat r.2 r.1
    else .ok r

/-- One request processed by the three member functions of `cache` in turn:
`before_request`, then `update_policy` with the returned stats, then
`after_request` with the same stats and the result of `update_policy` (false when
it returned no value); `hit` is true exactly when the file is cached. -/
def env.request (e : env) (filename : Int) (size : ℚ) (datatype request action : Int) : env :=
  let hit := e.check_in_cache filename
  let r1 := e._cache.before_request filename hit size datatype request
  let r2 := r1.1.update_policy filename r1.2 hit action
  { e with _cache := r2.1.after_request r1.2 hit (r2.2.getD false) }

/-- A step of a request sequence: a request, or a call of `env::purge` at some
tick with some purge delta. -/
inductive CacheOp where
  | request (filename : Int) (size : ℚ) (datatype request action : Int) : CacheOp
  | purge (tick purge_delta : Int) : CacheOp

/-- Runs one step of a request sequence. -/
def env.run_cache_op (e : env) : CacheOp → env
  | .request filename size datatype request action =>
    e.request filename size datatype request action
  | .purge tick purge_delta =>
    ({ e with _curRequest_from_start := tick, _purge_delta := purge_delta }).purge

/-- Runs a request sequence. -/
def env.run_cache_ops (e : env) (ops : List CacheOp) : env := ops.foldl env.run_cache_op e

/-- A step of the driver on the environment: a call of one of the three member
functions, a call of `set_curValues`, or an assignment to one of the members the
bindings make writable (lines 611-621). -/
inductive EnvOp where
  | update (fuel : Nat) (curFilename action : Int) : EnvOp
  | sweep (coeff0 : ℚ) : EnvOp
  | purge : EnvOp
  | set_curValues (size frequency recency datatype occupancy hit_rate : ℚ) : EnvOp
  | assign_curValues (values : List ℚ) : EnvOp
  | assign_adding_or_evicting (mode : Int) : EnvOp
  | assign_curRequest_from_start (tick : Int) : EnvOp
  | assign_curRequest (tick : Int) : EnvOp
  | assign_cached_files_index (index : Int) : EnvOp
  | assign_cache (c : cache) : EnvOp

/-- Runs one step of the driver. -/
def env.run_op (e : env) : EnvOp → Outcome env
  | .update fuel curFilename action =>
    e.update_windows_getting_eventual_rewards_accumulate fuel curFilename action
  | .sweep coeff0 => e.look_for_invalidated_add_evict_accumulate coeff0
  | .purge => .ok e.purge
  | .set_curValues size frequency recency datatype occupancy hit_rate =>
    .ok (e.set_curValues size frequency recency datatype occupancy hit_rate)
  | .assign_curValues values => .ok { e with _curValues := values }
  | .assign_adding_or_evicting mode => .ok { e with _adding_or_evicting := mode }
  | .assign_curRequest_from_start tick => .ok { e with _curRequest_from_start := tick }
  | .assign_curRequest tick => .ok { e with _curRequest := tick }
  | .assign_cached_files_index index => .ok { e with _cached_files_index := index }
  | .assign_cache c => .ok { e with _cache := c }

/-- Runs a sequence of driver steps; it returns when every step returns. -/
def env.run_ops : env → List EnvOp → Outcome env
  | e, [] => .ok e
  | e, op :: rest => (e.run_op op).bind fun e1 => env.run_ops e1 rest

/-! ## Specification-side definitions and scenarios -/

/-- Holds when `rec` is the record the sweep builds for the pending decision `w`
that it resolves with coefficient `coeff` (lines 406-416). -/
def emitted_from (e : env) (coeff : ℚ) (w : WindowElement) (rec : List ℚ) : Prop :=
  ∃ hr w1, e._cache.hit_rate = .ok hr ∧
    ({ w with reward := resolved_reward w.reward coeff w.action }).concat_with_next_values
      e._cache.capacity hr = .ok (w1, rec)

/-- The final reward in linear mode as the specification words it, by its four
cases on the accrued reward `r`, the action `a` and the snapshot size `s`. -/
def linear_reward_spec (r : ℚ) (a : Int) (s : ℚ) : ℚ :=
  if r ≠ 0 ∧ a = 0 then r * s
  else if r ≠ 0 ∧ a ≠ 0 then -(r * s)
  else if r = 0 ∧ a = 0 then -s
  else s

/-- Every pending decision of the window has a 6-element snapshot and is as the
constructor left it (`concat_with_next_values` only ever runs on copies). -/
def window_wf (win : List (Int × List WindowElement)) : Prop :=
  ∀ p ∈ win, ∀ w ∈ p.2, w.cur_values.length = 6 ∧ w.next_values = []

/-- Both windows are well formed and the hit and miss counters are counts. -/
def env_wf (e : env) : Prop :=
  window_wf e._request_window_elements ∧ window_wf e._eviction_window_elements ∧
    0 ≤ e._cache._hit ∧ 0 ≤ e._cache._miss

/-- The scenario of the specification: linear mode, capacity 1000, both horizons
5, the features of a file of size 100 set, tick 0. -/
def scenario_start : env :=
  { (env.new 5 5 10 "linear" 1000 0).set_curValues 100 1 0 0 0 0 with
    _curRequest_from_start := 0 }

/-- The scenario after file 1 was registered with action add at tick 0. -/
def scenario_registered : env :=
  { scenario_start with
    _request_window_elements := [(1, [WindowElement.new 0 [100, 1, 0, 0, 0, 0] 0 0])] }

/-- Normalized mode, add horizon 5, the features of a file of size 0 set, tick 0. -/
def normalized_start : env :=
  { (env.new 5 5 10 "sigmoid" 1000 0).set_curValues 0 1 0 0 0 0 with
    _curRequest_from_start := 0 }

/-- Normalized mode at tick 6 with add horizon 5: file 1 (size 0, below
`it_liminf_size`) and file 2 (size 10000, above `it_limsup_size`) each have one
pending add decision taken at tick 0. -/
def normalized_two_files : env :=
  { (env.new 5 5 10 "sigmoid" 1000 0).set_curValues 10000 1 0 0 0 0 with
    _curRequest_from_start := 6,
    _request_window_elements :=
      [(1, [WindowElement.new 0 [0, 1, 0, 0, 0, 0] 0 0]),
       (2, [WindowElement.new 0 [10000, 1, 0, 0, 0, 0] 0 0])] }

/-- The scenario at tick 6 with the cache half full (500 of 1000). -/
def half_full_env : env :=
  { scenario_registered with
    _curRequest_from_start := 6,
    _cache := { scenario_registered._cache with _size := 500 } }

/-- The state `half_full_env` after the sweep. -/
def half_full_swept : env :=
  { half_full_env with
    _request_window_elements := [],
    _cache := { half_full_env._cache with _daily_rewards_add := [-100] },
    _add_memory_vector := [[100, 1, 0, 0, 0, 0, 0, -100, 100, 2, 0, 0, 1 / 2, 0]] }

/-- A fresh environment switched to evict mode, with features set. -/
def evict_mode_env : env :=
  { (env.new 5 5 10 "linear" 1000 0).set_curValues 100 1 0 0 0 0 with
    _curRequest_from_start := 0,
    _adding_or_evicting := 1 }

/-- The arithmetic mean of a list of numbers, as the specification words it. -/
def arithmetic_mean (xs : List ℚ) : ℚ := xs.sum / (xs.length : ℚ)

/-- The stats entry stored for a file (the value-initialised one when absent). -/
def stats_of (c : cache) (filename : Int) : FileStats :=
  (umap_find c._stats._files filename).getD FileStats.zero

/-- Tick 100, purge delta 10, file 2 cached: file 1 is old and not cached, file 2
is old and cached, file 3 is not cached and has age exactly 10. -/
def purge_env : env :=
  { env.new 5 5 10 "linear" 1000 0 with
    _curRequest_from_start := 100,
    _cache := { cache.new with
                _max_size := 1000,
                _cached_files := [2],
                _stats := { _files :=
                  [(1, { _size := 10, _hit := 0, _miss := 1, _last_request := 0, _datatype := 0 }),
                   (2, { _size := 20, _hit := 3, _miss := 1, _last_request := 0, _datatype := 0 }),
                   (3, { _size := 30, _hit := 0, _miss := 1, _last_request := 90,
                         _datatype := 0 })] } } }

/-- A cache holding files 2 and 3, with stats for files 1, 2 and 3. -/
def means_cache : cache :=
  { cache.new with
    _max_size := 1000,
    _cached_files := [2, 3],
    _stats := { _files :=
      [(1, { _size := 10, _hit := 0, _miss := 1, _last_request := 0, _datatype := 0 }),
       (2, { _size := 20, _hit := 3, _miss := 1, _last_request := 4, _datatype := 0 }),
       (3, { _size := 30, _hit := 0, _miss := 1, _last_request := 8, _datatype := 0 })] } }

/-- A cache with one hit and one miss counted. -/
def one_hit_one_miss : cache := { cache.new with _max_size := 1000, _hit := 1, _miss := 1 }

/-- A generator that counts: seeding with `s` sets the state to `s`, a draw
returns the state and increments it. -/
def counting_generator : Generator Nat :=
  { srand := fun seed => seed.toNat, rand := fun g => (g, g + 1) }

/-- Add mode, seed 0, two records in the add replay buffer. -/
def two_record_env : env :=
  { env.new 5 5 10 "linear" 1000 0 with
    _add_memory_vector := [[100, 1, 0, 0, 0, 0, 0, -100, 100, 2, 0, 0, 0, 0],
                           [7, 1, 0, 0, 0, 0, 0, -7, 7, 2, 0, 0, 0, 0]] }

/-- A request sequence: file 1 (size 100) is added, file 2 (size 50) is not,
file 1 is requested again, a purge runs, and file 2 is added with another size. -/
def sample_requests : List CacheOp :=
  [.request 1 100 0 0 0, .request 2 50 0 1 1, .request 1 999 0 2 0, .purge 100 10,
   .request 2 60 0 101 0]

/-- A driver sequence on the scenario: set the features, register file 1, move to
tick 6, sweep, purge, switch to a mode that is neither 0 nor 1 and call again. -/
def sample_ops : List EnvOp :=
  [.set_curValues 100 1 0 0 0 0, .assign_curRequest_from_start 0, .update 0 1 0,
   .assign_curRequest_from_start 6, .sweep 0, .purge, .assign_adding_or_evicting 2,
   .update 0 1 1]

/-- Occupied bytes equal the cached content: every cached file has a stats entry
and `_size` is the sum of the stored sizes of the cached files. -/
def cache_inv (c : cache) : Prop :=
  (∀ f ∈ c._cached_files, ∃ st, umap_find c._stats._files f = some st) ∧
    c._size = (c._cached_files.map (fun f => (stats_of c f)._size)).sum

/-- The pending decisions of a window, file after file. -/
def window_decisions : List (Int × List WindowElement) → List WindowElement
  | [] => []
  | p :: rest => p.2 ++ window_decisions rest

/-- Holds when `rec` is the record of the decision `w` resolved in linear mode:
the 6-element snapshot, the action, the four-case reward of `w` computed from its
accrued reward, its action and its snapshot size, then the next state. -/
def linear_record_of (e : env) (w : WindowElement) (rec : List ℚ) : Prop :=
  ∃ v0 v1 v2 v3 v4 v5 hr,
    w.cur_values = [v0, v1, v2, v3, v4, v5] ∧ e._cache.hit_rate = .ok hr ∧
    rec = [v0, v1, v2, v3, v4, v5, (w.action : ℚ), linear_reward_spec w.reward w.action v0,
           v0, v1 + 1, v2, v3, e._cache.capacity / 100, hr]

/-! ## Auxiliary lemmas -/

theorem Outcome.bind_eq_ok {α β : Type} {x : Outcome α} {f : α → Outcome β} {b : β}
    (h : x.bind f = .ok b) : ∃ a, x = .ok a ∧ f a = .ok b := by
  cases x with
  | ok a => exact ⟨a, rfl, h⟩
  | undefined => simp [Outcome.bind] at h
  | unfinished => simp [Outcome.bind] at h

theorem sweep_inner_records (e : env) (H : Int) (upd : ℚ → ℚ → ℚ) (key : Int) :
    ∀ (fuel i : Nat) (vec : List WindowElement) (acc : SweepAcc)
      (out : List WindowElement × SweepAcc),
      sweep_inner e H upd key fuel i vec acc = .ok out →
      ∃ recs, out.2.memory = acc.memory ++ recs ∧
        ∀ rec ∈ recs, ∃ w size c, w ∈ vec ∧ w.cur_values[0]? = some size ∧
          H < e._curRequest_from_start - w.counter ∧ emitted_from e (upd size c) w rec := by
  intro fuel
  induction fuel with
  | zero =>
    intro i vec acc out h
    unfold sweep_inner at h
    cases hget : vec[i]? with
    | none =>
      simp [hget] at h
      subst h
      exact ⟨[], by simp, by simp⟩
    | some obj => simp [hget] at h
  | succ n ih =>
    intro i vec acc out h
    unfold sweep_inner at h
    cases hget : vec[i]? with
    | none =>
      simp [hget] at h
      subst h
      exact ⟨[], by simp, by simp⟩
    | some obj =>
      simp only [hget] at h
      cases hsz : obj.cur_values[0]? with
      | none => simp [hsz] at h
      | some size =>
        simp only [hsz] at h
        by_cases hexp : e._curRequest_from_start - obj.counter > H
        · rw [if_pos hexp] at h
          obtain ⟨hr, hhr, h⟩ := Outcome.bind_eq_ok h
          obtain ⟨res, hres, h⟩ := Outcome.bind_eq_ok h
          obtain ⟨recs, hmem, hall⟩ := ih _ _ _ _ h
          refine ⟨res.2 :: recs, by simpa using hmem, ?_⟩
          intro rec hrec
          rcases List.mem_cons.mp hrec with hhead | htail
          · subst hhead
            exact ⟨obj, size, acc.coeff, List.getElem?_mem hget, hsz, hexp, hr, res.1, hhr, hres⟩
          · obtain ⟨w, s, c, hw, hs, hlt, hem⟩ := hall rec htail
            exact ⟨w, s, c, List.mem_of_mem_eraseIdx hw, hs, hlt, hem⟩
        · rw [if_neg hexp] at h
          exact ih (i + 1) vec { acc with coeff := upd size acc.coeff } out h

theorem sweep_window_records (e : env) (H : Int) (upd : ℚ → ℚ → ℚ) :
    ∀ (win : List (Int × List WindowElement)) (acc : SweepAcc)
      (out : List (Int × List WindowElement) × SweepAcc),
      sweep_window e H upd win acc = .ok out →
      ∃ recs, out.2.memory = acc.memory ++ recs ∧
        ∀ rec ∈ recs, ∃ w size c, (∃ p ∈ win, w ∈ p.2) ∧ w.cur_values[0]? = some size ∧
          H < e._curRequest_from_start - w.counter ∧ emitted_from e (upd size c) w rec := by
  intro win
  induction win with
  | nil =>
    intro acc out h
    simp [sweep_window] at h
    subst h
    exact ⟨[], by simp, by simp⟩
  | cons p rest ih =>
    intro acc out h
    obtain ⟨key, vec⟩ := p
    simp only [sweep_window] at h
    obtain ⟨r1, h1, h⟩ := Outcome.bind_eq_ok h
    obtain ⟨r2, h2, h⟩ := Outcome.bind_eq_ok h
    obtain ⟨recs1, hm1, hall1⟩ := sweep_inner_records e H upd key _ _ _ _ _ h1
    obtain ⟨recs2, hm2, hall2⟩ := ih _ _ h2
    simp at h
    subst h
    refine ⟨recs1 ++ recs2, by simp [hm2, hm1], ?_⟩
    intro rec hrec
    rcases List.mem_append.mp hrec with h | h
    · obtain ⟨w, s, c, hw, hrest⟩ := hall1 rec h
      exact ⟨w, s, c, ⟨(key, vec), by simp, hw⟩, hrest⟩
    · obtain ⟨w, s, c, ⟨p, hp, hw⟩, hrest⟩ := hall2 rec h
      exact ⟨w, s, c, ⟨p, List.mem_cons_of_mem _ hp, hw⟩, hrest⟩

theorem update_add_loop_unfinished (e : env) (action : Int) (coeff : ℚ)
    (hH : 0 < e._time_span_add) :
    ∀ (fuel i : Nat) (vec : List WindowElement) (daily : List ℚ) (memory : List (List ℚ)),
      i < vec.length →
      (∀ j w, i ≤ j → vec[j]? = some w →
        e._curRequest_from_start - w.counter < e._time_span_add) →
      update_add_loop e action coeff fuel i vec daily memory = .unfinished := by
  intro fuel
  induction fuel with
  | zero =>
    intro i vec daily memory hi _
    have hget : vec[i]? = some vec[i] := List.getElem?_eq_getElem hi
    unfold update_add_loop
    simp [hget]
  | succ n ih =>
    intro i vec daily memory hi hyoung
    have hget : vec[i]? = some vec[i] := List.getElem?_eq_getElem hi
    have hlt := hyoung i vec[i] (Nat.le_refl i) hget
    unfold update_add_loop
    simp only [hget]
    rw [if_neg (by omega)]
    apply ih
    · simp; omega
    · intro j w hij hj
      by_cases hjl : j < vec.length
      · rw [List.getElem?_append_left hjl] at hj
        exact hyoung j w (by omega) hj
      · have hjl2 : vec.length ≤ j := by omega
        rw [List.getElem?_append_right hjl2] at hj
        have hw : w = WindowElement.new e._curRequest_from_start e._curValues 0 action := by
          cases hk : j - vec.length with
          | zero => rw [hk] at hj; simpa using hj.symm
          | succ m => rw [hk] at hj; simp at hj
        subst hw
        simp [WindowElement.new]
        exact hH

theorem umap_find_set_self {β : Type} (m : List (Int × β)) (k : Int) (v : β) :
    umap_find (umap_set m k v) k = some v := by
  induction m with
  | nil => simp [umap_set, umap_find]
  | cons p rest ih =>
    obtain ⟨k1, v1⟩ := p
    by_cases hk : k1 = k
    · simp [umap_set, umap_find, hk]
    · simp [umap_set, umap_find, hk, ih]

theorem umap_find_set_other {β : Type} (m : List (Int × β)) (k g : Int) (v : β) (hg : g ≠ k) :
    umap_find (umap_set m k v) g = umap_find m g := by
  induction m with
  | nil => simp [umap_set, umap_find, hg.symm]
  | cons p rest ih =>
    obtain ⟨k1, v1⟩ := p
    by_cases hk : k1 = k
    · subst hk
      simp [umap_set, umap_find, hg.symm]
    · by_cases hkg : k1 = g
      · subst hkg
        simp [umap_set, umap_find, hg]
      · simp [umap_set, umap_find, hk, hkg, ih]

theorem update_evict_scan_ok (e : env) (vec : List WindowElement)
    (h : ∀ w ∈ vec, e._curRequest_from_start - w.counter < e._time_span_evict) :
    update_evict_scan e vec = .ok () := by
  induction vec with
  | nil => rfl
  | cons obj rest ih =>
    have h1 := h obj (List.mem_cons_self _ _)
    unfold update_evict_scan
    rw [if_neg (by omega)]
    exact ih (fun w hw => h w (List.mem_cons_of_mem _ hw))

theorem resolved_reward_linear (r : ℚ) (a : Int) (s : ℚ) :
    resolved_reward r s a = linear_reward_spec r a s := by
  unfold resolved_reward linear_reward_spec
  by_cases hr : r = 0 <;> by_cases ha : a = 0 <;> simp [hr, ha]

theorem concat_record_shape (w w1 : WindowElement) (occupancy hit_rate : ℚ) (rec : List ℚ)
    (h : w.concat_with_next_values occupancy hit_rate = .ok (w1, rec)) :
    ∃ tail, rec = w.cur_values ++ [(w.action : ℚ), w.reward] ++ tail := by
  unfold WindowElement.concat_with_next_values at h
  split at h
  · rename_i v0 v1 v2 v3 _ _ _ _
    simp at h
    exact ⟨w.next_values ++ [v0, v1 + 1, v2, v3, occupancy / 100, hit_rate],
      by rw [← h.2]; simp⟩
  · simp at h

theorem hit_rate_defined (c : cache) (hh : 0 ≤ c._hit) (hm : 0 ≤ c._miss) :
    ∃ hr, c.hit_rate = .ok hr := by
  unfold cache.hit_rate
  by_cases h0 : c._hit = 0
  · exact ⟨0, by simp [h0]⟩
  · have hsum : c._hit + c._miss ≠ 0 := by omega
    rw [if_pos h0, if_neg hsum]
    exact ⟨_, rfl⟩

theorem concat_defined (w : WindowElement) (occupancy hit_rate : ℚ)
    (hcur : w.cur_values.length = 6) :
    ∃ res, w.concat_with_next_values occupancy hit_rate = .ok res := by
  match hc : w.cur_values, hcur with
  | [v0, v1, v2, v3, v4, v5], _ =>
    simp only [WindowElement.concat_with_next_values, hc, List.getElem?_cons_zero,
      List.getElem?_cons_succ]
    exact ⟨_, rfl⟩

theorem sweep_inner_returns (e : env) (H : Int) (upd : ℚ → ℚ → ℚ) (key : Int)
    (hh : 0 ≤ e._cache._hit) (hm : 0 ≤ e._cache._miss) :
    ∀ (fuel i : Nat) (vec : List WindowElement) (acc : SweepAcc),
      (∀ w ∈ vec, w.cur_values.length = 6) → vec.length ≤ fuel + i →
      ∃ out, sweep_inner e H upd key fuel i vec acc = .ok out := by
  intro fuel
  induction fuel with
  | zero =>
    intro i vec acc _ hlen
    have hget : vec[i]? = none := List.getElem?_eq_none (by omega)
    unfold sweep_inner
    simp only [hget]
    exact ⟨_, rfl⟩
  | succ n ih =>
    intro i vec acc hwf hlen
    unfold sweep_inner
    cases hget : vec[i]? with
    | none => exact ⟨_, rfl⟩
    | some obj =>
      have hobj : obj.cur_values.length = 6 := hwf obj (List.getElem?_mem hget)
      have hsz : ∃ size, obj.cur_values[0]? = some size :=
        ⟨obj.cur_values[0], List.getElem?_eq_getElem (by omega)⟩
      obtain ⟨size, hsz⟩ := hsz
      obtain ⟨hr, hhr⟩ := hit_rate_defined e._cache hh hm
      simp only [hsz]
      by_cases hexp : e._curRequest_from_start - obj.counter > H
      · obtain ⟨res, hres⟩ := concat_defined
          { obj with reward := resolved_reward obj.reward (upd size acc.coeff) obj.action }
          e._cache.capacity hr hobj
        rw [if_pos hexp]
        simp only [hhr, hres, Outcome.bind]
        apply ih
        · intro w hw
          exact hwf w (List.mem_of_mem_eraseIdx hw)
        · have := List.length_eraseIdx_le vec i
          omega
      · rw [if_neg hexp]
        exact ih _ _ _ hwf (by omega)

theorem sweep_window_returns (e : env) (H : Int) (upd : ℚ → ℚ → ℚ)
    (hh : 0 ≤ e._cache._hit) (hm : 0 ≤ e._cache._miss) :
    ∀ (win : List (Int × List WindowElement)) (acc : SweepAcc),
      window_wf win → ∃ out, sweep_window e H upd win acc = .ok out := by
  intro win
  induction win with
  | nil => intro acc _; exact ⟨_, rfl⟩
  | cons p rest ih =>
    intro acc hwf
    obtain ⟨key, vec⟩ := p
    obtain ⟨r1, h1⟩ := sweep_inner_returns e H upd key hh hm vec.length 0 vec acc
      (fun w hw => (hwf (key, vec) (List.mem_cons_self _ _) w hw).1) (by omega)
    obtain ⟨r2, h2⟩ := ih r1.2 (fun q hq => hwf q (List.mem_cons_of_mem _ hq))
    simp only [sweep_window, h1, h2, Outcome.bind]
    exact ⟨_, rfl⟩

theorem sweep_returns (e : env) (coeff0 : ℚ) (hwf : env_wf e) :
    ∃ e1, e.look_for_invalidated_add_evict_accumulate coeff0 = .ok e1 := by
  obtain ⟨hadd, hevict, hh, hm⟩ := hwf
  obtain ⟨a, ha⟩ := sweep_window_returns e e._time_span_add
    (sweep_coeff_add e._output_activation) hh hm e._request_window_elements
    { coeff := coeff0, toDelete := [], daily := e._cache._daily_rewards_add,
      memory := e._add_memory_vector } hadd
  obtain ⟨b, hb⟩ := sweep_window_returns e e._time_span_evict
    (sweep_coeff_evict e._output_activation) hh hm e._eviction_window_elements
    { coeff := a.2.coeff, toDelete := a.2.toDelete, daily := e._cache._daily_rewards_evict,
      memory := e._evict_memory_vector } hevict
  simp only [env.look_for_invalidated_add_evict_accumulate, ha, hb, Outcome.bind]
  exact ⟨_, rfl⟩

theorem emitted_from_layout (e : env) (coeff : ℚ) (w : WindowElement) (rec : List ℚ)
    (hem : emitted_from e coeff w rec)
    (hcur : w.cur_values.length = 6) (hnext : w.next_values = []) :
    rec.length = 14 ∧ rec[12]? = some (e._cache.capacity / 100) ∧
      ∃ hr, e._cache.hit_rate = .ok hr ∧ rec[13]? = some hr := by
  obtain ⟨hr, w1, hhr, hcat⟩ := hem
  match hc : w.cur_values, hcur with
  | [v0, v1, v2, v3, v4, v5], _ =>
    simp [WindowElement.concat_with_next_values, hc, hnext] at hcat
    obtain ⟨_, hrec⟩ := hcat
    subst hrec
    exact ⟨by simp, by simp, hr, hhr, by simp⟩

theorem half_full_sweep (coeff0 : ℚ) :
    half_full_env.look_for_invalidated_add_evict_accumulate coeff0 = .ok half_full_swept := by
  simp [half_full_env, half_full_swept, scenario_start, scenario_registered, env.new, cache.new,
    env.set_curValues,
    env.look_for_invalidated_add_evict_accumulate, Outcome.bind, sweep_window, sweep_inner,
    WindowElement.new, sweep_coeff_add, resolved_reward, cache.hit_rate, cache.capacity,
    WindowElement.concat_with_next_values, uset_insert, umap_erase]
  norm_num

theorem half_full_env_wf : env_wf half_full_env := by
  refine ⟨?_, ?_, by decide, by decide⟩
  · intro p hp w hw
    simp [half_full_env, scenario_registered] at hp
    subst hp
    simp at hw
    subst hw
    simp [WindowElement.new]
  · intro p hp
    simp [half_full_env, scenario_registered, scenario_start, env.new, env.set_curValues] at hp

theorem foldl_umap_erase {β : Type} (ks : List Int) :
    ∀ m : List (Int × β), ks.foldl umap_erase m = m.filter (fun p => decide (p.1 ∉ ks)) := by
  induction ks with
  | nil => intro m; simp
  | cons k rest ih =>
    intro m
    simp only [List.foldl_cons, ih, umap_erase, List.filter_filter]
    apply List.filter_congr
    intro p _
    by_cases h1 : p.1 = k <;> by_cases h2 : p.1 ∈ rest <;> simp [h1, h2]

theorem mem_uset_insert (s : List Int) (k x : Int) :
    x ∈ uset_insert s k ↔ x ∈ s ∨ x = k := by
  unfold uset_insert
  by_cases h : k ∈ s
  · simp only [if_pos h]
    constructor
    · exact Or.inl
    · rintro (h1 | h1)
      · exact h1
      · rw [h1]; exact h
  · simp [if_neg h]

theorem perm_cons_eraseIdx (vec : List WindowElement) (i : Nat) (obj : WindowElement)
    (hget : vec[i]? = some obj) : vec.Perm (obj :: vec.eraseIdx i) := by
  obtain ⟨hi, hobj⟩ := List.getElem?_eq_some.mp hget
  have hsplit : vec = vec.take i ++ obj :: vec.drop (i + 1) := by
    conv_lhs => rw [← List.take_append_drop i vec, List.drop_eq_getElem_cons hi, hobj]
  rw [List.eraseIdx_eq_take_drop_succ]
  conv_lhs => rw [hsplit]
  exact List.perm_middle

theorem sweep_inner_nil (e : env) (H : Int) (upd : ℚ → ℚ → ℚ) (key : Int) (fuel i : Nat)
    (acc : SweepAcc) : sweep_inner e H upd key fuel i [] acc = .ok ([], acc) := by
  cases fuel <;> simp [sweep_inner]

theorem sweep_inner_resolved (e : env) (H : Int) (upd : ℚ → ℚ → ℚ) (key : Int) :
    ∀ (fuel i : Nat) (vec : List WindowElement) (acc : SweepAcc)
      (out : List WindowElement × SweepAcc),
      sweep_inner e H upd key fuel i vec acc = .ok out →
      ∃ pairs : List (WindowElement × List ℚ),
        out.2.memory = acc.memory ++ pairs.map Prod.snd ∧
        vec.Perm (out.1 ++ pairs.map Prod.fst) ∧
        (∀ p ∈ pairs, H < e._curRequest_from_start - p.1.counter ∧
          ∃ size c, p.1.cur_values[0]? = some size ∧ emitted_from e (upd size c) p.1 p.2) ∧
        ∀ obj, vec[i]? = some obj → H < e._curRequest_from_start - obj.counter →
          obj ∈ pairs.map Prod.fst := by
  intro fuel
  induction fuel with
  | zero =>
    intro i vec acc out h
    unfold sweep_inner at h
    cases hget : vec[i]? with
    | none =>
      simp [hget] at h
      subst h
      exact ⟨[], by simp, by simp, by simp, by simp⟩
    | some obj => simp [hget] at h
  | succ n ih =>
    intro i vec acc out h
    unfold sweep_inner at h
    cases hget : vec[i]? with
    | none =>
      simp [hget] at h
      subst h
      exact ⟨[], by simp, by simp, by simp, by simp⟩
    | some obj =>
      simp only [hget] at h
      cases hsz : obj.cur_values[0]? with
      | none => simp [hsz] at h
      | some size =>
        simp only [hsz] at h
        by_cases hexp : e._curRequest_from_start - obj.counter > H
        · rw [if_pos hexp] at h
          obtain ⟨hr, hhr, h⟩ := Outcome.bind_eq_ok h
          obtain ⟨res, hres, h⟩ := Outcome.bind_eq_ok h
          obtain ⟨pairs, hmem, hperm, hall, _⟩ := ih _ _ _ _ h
          refine ⟨(obj, res.2) :: pairs, by simpa using hmem, ?_, ?_, ?_⟩
          · have h1 := perm_cons_eraseIdx vec i obj hget
            have h2 : (obj :: vec.eraseIdx i).Perm
                (obj :: (out.1 ++ pairs.map Prod.fst)) := List.Perm.cons obj hperm
            have h3 : (out.1 ++ obj :: pairs.map Prod.fst).Perm
                (obj :: (out.1 ++ pairs.map Prod.fst)) := List.perm_middle
            simpa using (h1.trans h2).trans h3.symm
          · intro p hp
            rcases List.mem_cons.mp hp with hhead | htail
            · subst hhead
              exact ⟨hexp, size, acc.coeff, hsz, hr, res.1, hhr, hres⟩
            · exact hall p htail
          · intro obj2 hobj2 _
            simp at hobj2
            subst hobj2
            simp
        · rw [if_neg hexp] at h
          obtain ⟨pairs, hmem, hperm, hall, _⟩ :=
            ih (i + 1) vec { acc with coeff := upd size acc.coeff } out h
          refine ⟨pairs, hmem, hperm, hall, ?_⟩
          intro obj2 hobj2 hexp2
          simp at hobj2
          subst hobj2
          exact absurd hexp2 hexp

theorem sweep_inner_toDelete (e : env) (H : Int) (upd : ℚ → ℚ → ℚ) (key : Int) :
    ∀ (fuel i : Nat) (vec : List WindowElement) (acc : SweepAcc)
      (out : List WindowElement × SweepAcc),
      sweep_inner e H upd key fuel i vec acc = .ok out →
      ∀ k ∈ out.2.toDelete, k ∈ acc.toDelete ∨ (k = key ∧ out.1 = []) := by
  intro fuel
  induction fuel with
  | zero =>
    intro i vec acc out h
    unfold sweep_inner at h
    cases hget : vec[i]? with
    | none =>
      simp [hget] at h
      subst h
      intro k hk
      exact Or.inl hk
    | some obj => simp [hget] at h
  | succ n ih =>
    intro i vec acc out h
    unfold sweep_inner at h
    cases hget : vec[i]? with
    | none =>
      simp [hget] at h
      subst h
      intro k hk
      exact Or.inl hk
    | some obj =>
      simp only [hget] at h
      cases hsz : obj.cur_values[0]? with
      | none => simp [hsz] at h
      | some size =>
        simp only [hsz] at h
        by_cases hexp : e._curRequest_from_start - obj.counter > H
        · rw [if_pos hexp] at h
          obtain ⟨hr, hhr, h⟩ := Outcome.bind_eq_ok h
          obtain ⟨res, hres, h⟩ := Outcome.bind_eq_ok h
          by_cases hlen : (vec.eraseIdx i).length = 0
          · have hnil : vec.eraseIdx i = [] := List.length_eq_zero.mp hlen
            simp only [hlen, if_true] at h
            rw [hnil, sweep_inner_nil] at h
            injection h with h
            subst h
            intro k hk
            rcases (mem_uset_insert _ _ _).mp hk with h1 | h1
            · exact Or.inl h1
            · exact Or.inr ⟨h1, rfl⟩
          · simp only [hlen, if_false] at h
            intro k hk
            have h5 := ih _ _ _ _ h k hk
            simpa using h5
        · rw [if_neg hexp] at h
          exact ih (i + 1) vec { acc with coeff := upd size acc.coeff } out h

theorem sweep_window_resolved (e : env) (H : Int) (upd : ℚ → ℚ → ℚ) :
    ∀ (win : List (Int × List WindowElement)) (acc : SweepAcc)
      (out : List (Int × List WindowElement) × SweepAcc),
      sweep_window e H upd win acc = .ok out →
      ∃ pairs : List (WindowElement × List ℚ),
        out.2.memory = acc.memory ++ pairs.map Prod.snd ∧
        (window_decisions win).Perm (window_decisions out.1 ++ pairs.map Prod.fst) ∧
        (∀ p ∈ pairs, H < e._curRequest_from_start - p.1.counter ∧
          ∃ size c, p.1.cur_values[0]? = some size ∧ emitted_from e (upd size c) p.1 p.2) ∧
        ∀ q ∈ win, ∀ obj, q.2[0]? = some obj → H < e._curRequest_from_start - obj.counter →
          obj ∈ pairs.map Prod.fst := by
  intro win
  induction win with
  | nil =>
    intro acc out h
    simp [sweep_window] at h
    subst h
    exact ⟨[], by simp, by simp [window_decisions], by simp, by simp⟩
  | cons p rest ih =>
    intro acc out h
    obtain ⟨key, vec⟩ := p
    simp only [sweep_window] at h
    obtain ⟨r1, h1, h⟩ := Outcome.bind_eq_ok h
    obtain ⟨r2, h2, h⟩ := Outcome.bind_eq_ok h
    obtain ⟨pairs1, hm1, hp1, hall1, hfirst1⟩ :=
      sweep_inner_resolved e H upd key _ _ _ _ _ h1
    obtain ⟨pairs2, hm2, hp2, hall2, hfirst2⟩ := ih _ _ h2
    simp at h
    subst h
    refine ⟨pairs1 ++ pairs2, by simp [hm2, hm1], ?_, ?_, ?_⟩
    · simp only [window_decisions, List.map_append]
      have h3 := List.Perm.append hp1 hp2
      refine h3.trans ?_
      simp only [List.append_assoc]
      apply List.Perm.append_left
      rw [← List.append_assoc, ← List.append_assoc]
      apply List.Perm.append_right
      exact List.perm_append_comm
    · intro q hq
      rcases List.mem_append.mp hq with h | h
      · exact hall1 q h
      · exact hall2 q h
    · intro q hq obj hobj hexp
      rw [List.map_append]
      rcases List.mem_cons.mp hq with h | h
      · subst h
        exact List.mem_append_left _ (hfirst1 obj hobj hexp)
      · exact List.mem_append_right _ (hfirst2 q h obj hobj hexp)

theorem sweep_window_toDelete (e : env) (H : Int) (upd : ℚ → ℚ → ℚ) :
    ∀ (win : List (Int × List WindowElement)) (acc : SweepAcc)
      (out : List (Int × List WindowElement) × SweepAcc),
      sweep_window e H upd win acc = .ok out →
      umap_keys out.1 = umap_keys win ∧
      ∀ k ∈ out.2.toDelete, k ∈ acc.toDelete ∨ (k, []) ∈ out.1 := by
  intro win
  induction win with
  | nil =>
    intro acc out h
    simp [sweep_window] at h
    subst h
    exact ⟨rfl, fun k hk => Or.inl hk⟩
  | cons p rest ih =>
    intro acc out h
    obtain ⟨key, vec⟩ := p
    simp only [sweep_window] at h
    obtain ⟨r1, h1, h⟩ := Outcome.bind_eq_ok h
    obtain ⟨r2, h2, h⟩ := Outcome.bind_eq_ok h
    have hd1 := sweep_inner_toDelete e H upd key _ _ _ _ _ h1
    obtain ⟨hk2, hd2⟩ := ih _ _ h2
    simp at h
    subst h
    refine ⟨?_, ?_⟩
    · simp only [umap_keys] at hk2 ⊢
      simp [hk2]
    · intro k hk
      rcases hd2 k hk with h | h
      · rcases hd1 k h with h | ⟨hkey, hnil⟩
        · exact Or.inl h
        · refine Or.inr ?_
          rw [hkey, ← hnil]
          exact List.mem_cons_self _ _
      · exact Or.inr (List.mem_cons_of_mem _ h)

theorem window_decisions_filter (ks : List Int) :
    ∀ m : List (Int × List WindowElement), (∀ p ∈ m, p.1 ∈ ks → p.2 = []) →
      window_decisions (m.filter (fun p => decide (p.1 ∉ ks))) = window_decisions m := by
  intro m
  induction m with
  | nil => intro _; rfl
  | cons p rest ih =>
    intro h
    have hrest := ih (fun q hq => h q (List.mem_cons_of_mem _ hq))
    by_cases hk : p.1 ∈ ks
    · rw [List.filter_cons_of_neg (by simp [hk]), hrest]
      simp only [window_decisions, h p (List.mem_cons_self _ _) hk, List.nil_append]
    · rw [List.filter_cons_of_pos (by simp [hk])]
      simp only [window_decisions, hrest]

theorem emitted_linear_record (e : env) (w : WindowElement) (rec : List ℚ) (size : ℚ)
    (hsz : w.cur_values[0]? = some size) (hem : emitted_from e size w rec)
    (hcur : w.cur_values.length = 6) (hnext : w.next_values = []) :
    linear_record_of e w rec := by
  obtain ⟨hr, w1, hhr, hcat⟩ := hem
  match hc : w.cur_values, hcur with
  | [v0, v1, v2, v3, v4, v5], _ =>
    simp [hc] at hsz
    subst hsz
    simp [WindowElement.concat_with_next_values, hc, hnext] at hcat
    obtain ⟨_, hrec⟩ := hcat
    exact ⟨v0, v1, v2, v3, v4, v5, hr, hc, hhr, by rw [← hrec, resolved_reward_linear]⟩

/-! ## Claims C1 to C10 -/

/-- C1 (the code evaluated at the scenario of the claim).  With add horizon 5,
file 1 of size 100 is registered with action add at tick 0 and not touched again.
The sweep at tick 5 appends no record and leaves the decision pending, because
line 405 tests `age > horizon`; the sweep one tick later appends the one record,
with state size 100 and reward -100. -/
theorem C1_sweep_at_horizon_emits_nothing (fuel : Nat) (coeff0 : ℚ) :
    scenario_start.update_windows_getting_eventual_rewards_accumulate fuel 1 0
        = .ok scenario_registered
    ∧ ({ scenario_registered with
          _curRequest_from_start := 5 }).look_for_invalidated_add_evict_accumulate coeff0
        = .ok { scenario_registered with _curRequest_from_start := 5 }
    ∧ ({ scenario_registered with
          _curRequest_from_start := 6 }).look_for_invalidated_add_evict_accumulate coeff0
        = .ok { scenario_start with
                _curRequest_from_start := 6,
                _cache := { scenario_start._cache with _daily_rewards_add := [-100] },
                _add_memory_vector := [[100, 1, 0, 0, 0, 0, 0, -100, 100, 2, 0, 0, 0, 0]] } := by
  refine ⟨?_, ?_, ?_⟩
  · simp [scenario_start, scenario_registered, env.new, cache.new, env.set_curValues,
      env.update_windows_getting_eventual_rewards_accumulate, Outcome.bind, umap_find, umap_set,
      WindowElement.new]
  · simp [scenario_start, scenario_registered, env.new, cache.new, env.set_curValues,
      env.look_for_invalidated_add_evict_accumulate, Outcome.bind, sweep_window, sweep_inner,
      WindowElement.new]
  · simp [scenario_start, scenario_registered, env.new, cache.new, env.set_curValues,
      env.look_for_invalidated_add_evict_accumulate, Outcome.bind, sweep_window, sweep_inner,
      WindowElement.new, sweep_coeff_add, resolved_reward, cache.hit_rate, cache.capacity,
      WindowElement.concat_with_next_values, uset_insert, umap_erase]
    norm_num

/-- C2 (the code evaluated on the states of the claim).  In add mode with a
positive add horizon, when every pending add decision of the file is younger than
the horizon, the call does not return within any number of loop steps: each round
appends a new element to the list being traversed (line 336). -/
theorem C2_touch_of_young_decision_never_returns (e : env) (f action : Int)
    (vec : List WindowElement) (fuel : Nat)
    (hmode : e._adding_or_evicting = 0)
    (hcur : e._curValues ≠ [])
    (hH : 0 < e._time_span_add)
    (hfind : umap_find e._request_window_elements f = some vec)
    (hne : vec ≠ [])
    (hyoung : ∀ w ∈ vec, e._curRequest_from_start - w.counter < e._time_span_add) :
    e.update_windows_getting_eventual_rewards_accumulate fuel f action = .unfinished := by
  obtain ⟨size, more, hcv⟩ := List.exists_cons_of_ne_nil hcur
  have hloop := update_add_loop_unfinished e action (size_coeff e._output_activation size) hH
    fuel 0 vec e._cache._daily_rewards_add e._add_memory_vector
    (List.length_pos.mpr hne)
    (fun j w _ hj => hyoung w (List.getElem?_mem hj))
  simp [env.update_windows_getting_eventual_rewards_accumulate, hmode, hcv, hfind, hloop,
    Outcome.bind]

/-- Witness of C2: the scenario, with file 1 touched again at tick 2. -/
theorem C2_witness :
    (0 : Int) < ({ scenario_registered with _curRequest_from_start := 2 } : env)._time_span_add
    ∧ umap_find
        ({ scenario_registered with _curRequest_from_start := 2 } : env)._request_window_elements 1
        = some [WindowElement.new 0 [100, 1, 0, 0, 0, 0] 0 0]
    ∧ ({ scenario_registered with
          _curRequest_from_start := 2 }).update_windows_getting_eventual_rewards_accumulate
        1000 1 0 = .unfinished :=
  ⟨by decide, by decide,
   C2_touch_of_young_decision_never_returns
    { scenario_registered with _curRequest_from_start := 2 } 1 0
    [WindowElement.new 0 [100, 1, 0, 0, 0, 0] 0 0] 1000
    (by decide) (by decide) (by decide) (by decide) (by decide) (by decide)⟩

/-- C3.  In linear mode the sweep of a well-formed environment (the keys of the
add window pairwise distinct) returns, and there is a list of pairs, each a
decision with its record, such that: the decisions of the add window before the
sweep are, up to order, those still in it afterwards together with the decisions
of the pairs (the resolved ones); the add buffer grew by exactly the records of
the pairs, in order; every resolved decision is older than the add horizon and
its record holds its own snapshot, its action and the reward `+r*s` if `r ≠ 0`
and `a = 0`, `-r*s` if `r ≠ 0` and `a ≠ 0`, `-s` if `r = 0` and `a = 0`, `+s` if
`r = 0` and `a ≠ 0`, for its accrued reward `r`, action `a` and snapshot size
`s`; and the first decision of a file, when older than the horizon, is among the
resolved ones. -/
theorem C3_linear_sweep_reward (e : env) (coeff0 : ℚ)
    (hwf : env_wf e) (hkeys : (umap_keys e._request_window_elements).Nodup)
    (hlin : e._output_activation = 1) :
    ∃ (e1 : env) (pairs : List (WindowElement × List ℚ)),
      e.look_for_invalidated_add_evict_accumulate coeff0 = .ok e1 ∧
      (window_decisions e._request_window_elements).Perm
        (window_decisions e1._request_window_elements ++ pairs.map Prod.fst) ∧
      e1._add_memory_vector = e._add_memory_vector ++ pairs.map Prod.snd ∧
      (∀ p ∈ pairs, e._time_span_add < e._curRequest_from_start - p.1.counter ∧
        linear_record_of e p.1 p.2) ∧
      ∀ q ∈ e._request_window_elements, ∀ w rest, q.2 = w :: rest →
        e._time_span_add < e._curRequest_from_start - w.counter →
        w ∈ pairs.map Prod.fst := by
  obtain ⟨e1, hsweep⟩ := sweep_returns e coeff0 hwf
  have hsweep0 := hsweep
  unfold env.look_for_invalidated_add_evict_accumulate at hsweep
  obtain ⟨a, ha, hsweep⟩ := Outcome.bind_eq_ok hsweep
  obtain ⟨b, _, hsweep⟩ := Outcome.bind_eq_ok hsweep
  obtain ⟨pairs, hmem, hperm, hall, hfirst⟩ := sweep_window_resolved _ _ _ _ _ _ ha
  obtain ⟨hk, hdel⟩ := sweep_window_toDelete _ _ _ _ _ _ ha
  simp at hsweep
  subst hsweep
  have hempty : ∀ p ∈ a.1, p.1 ∈ a.2.toDelete → p.2 = [] := by
    intro p hp hpk
    rcases hdel p.1 hpk with h | h
    · simp at h
    · have hnd : (a.1.map Prod.fst).Nodup := by
        have : umap_keys a.1 = umap_keys e._request_window_elements := hk
        simp only [umap_keys] at this
        rw [this]
        exact hkeys
      have hpq : p = (p.1, []) := List.inj_on_of_nodup_map hnd hp h rfl
      rw [hpq]
  have hwd : window_decisions (a.2.toDelete.foldl umap_erase a.1) = window_decisions a.1 := by
    rw [foldl_umap_erase]
    exact window_decisions_filter _ _ hempty
  refine ⟨_, pairs, hsweep0, ?_, hmem, ?_, ?_⟩
  · simp only [hwd]
    exact hperm
  · intro p hp
    obtain ⟨hexp, size, c, hsz, hem⟩ := hall p hp
    have hin : p.1 ∈ window_decisions e._request_window_elements :=
      hperm.symm.subset (List.mem_append_right _ (List.mem_map_of_mem Prod.fst hp))
    have hwfp : p.1.cur_values.length = 6 ∧ p.1.next_values = [] := by
      have hgen : ∀ (win : List (Int × List WindowElement)), window_wf win →
          ∀ w ∈ window_decisions win, w.cur_values.length = 6 ∧ w.next_values = [] := by
        intro win
        induction win with
        | nil => intro _ w hw; simp [window_decisions] at hw
        | cons q rest ih =>
          intro hq w hw
          simp only [window_decisions] at hw
          rcases List.mem_append.mp hw with h | h
          · exact hq q (List.mem_cons_self _ _) w h
          · exact ih (fun r hr => hq r (List.mem_cons_of_mem _ hr)) w h
      exact hgen _ hwf.1 _ hin
    refine ⟨hexp, emitted_linear_record e p.1 p.2 size hsz ?_ hwfp.1 hwfp.2⟩
    simpa [sweep_coeff_add, hlin] using hem
  · intro q hq w rest hqw hexp
    exact hfirst q hq w (by rw [hqw]; simp) hexp

/-- Witness of C3: the scenario swept at tick 6 with the cache half full; its one
decision is resolved into the one record of `half_full_swept`. -/
theorem C3_witness :
    env_wf half_full_env
    ∧ (umap_keys half_full_env._request_window_elements).Nodup
    ∧ half_full_env._output_activation = 1
    ∧ half_full_env.look_for_invalidated_add_evict_accumulate 0 = .ok half_full_swept
    ∧ ∃ (e1 : env) (pairs : List (WindowElement × List ℚ)),
      half_full_env.look_for_invalidated_add_evict_accumulate 0 = .ok e1 ∧
      (window_decisions half_full_env._request_window_elements).Perm
        (window_decisions e1._request_window_elements ++ pairs.map Prod.fst) ∧
      e1._add_memory_vector = half_full_env._add_memory_vector ++ pairs.map Prod.snd ∧
      (∀ p ∈ pairs,
        half_full_env._time_span_add < half_full_env._curRequest_from_start - p.1.counter ∧
        linear_record_of half_full_env p.1 p.2) ∧
      ∀ q ∈ half_full_env._request_window_elements, ∀ w rest, q.2 = w :: rest →
        half_full_env._time_span_add < half_full_env._curRequest_from_start - w.counter →
        w ∈ pairs.map Prod.fst :=
  ⟨half_full_env_wf, by decide, by decide, half_full_sweep 0,
   C3_linear_sweep_reward half_full_env 0 half_full_env_wf (by decide) (by decide)⟩

/-- C4 (the code evaluated at a failing input).  In normalized mode, after file 1
(size 0) and file 2 (size 10000) were registered with action add at tick 0, the
sweep at tick 6 writes the same reward `-coeff0` into both records, where `coeff0`
is whatever the uninitialised local `coeff` held: lines 400-402 declare new locals
instead of assigning it.  The coefficients of the two snapshots are 0 and 1, so
whatever `coeff0` is, the two magnitudes cannot both be `max(|r|, 1) * c`. -/
theorem C4_normalized_sweep_ignores_size (fuel : Nat) (coeff0 : ℚ) :
    ((normalized_start.update_windows_getting_eventual_rewards_accumulate fuel 1 0).bind
      fun e1 =>
        ((e1.set_curValues 10000 1 0 0 0 0).update_windows_getting_eventual_rewards_accumulate
          fuel 2 0).bind
      fun e2 => .ok { e2 with _curRequest_from_start := 6 }) = .ok normalized_two_files
    ∧ normalized_two_files.look_for_invalidated_add_evict_accumulate coeff0
      = .ok { normalized_two_files with
              _request_window_elements := [],
              _cache := { normalized_two_files._cache with
                          _daily_rewards_add := [-coeff0, -coeff0] },
              _add_memory_vector :=
                [[0, 1, 0, 0, 0, 0, 0, -coeff0, 0, 2, 0, 0, 0, 0],
                 [10000, 1, 0, 0, 0, 0, 0, -coeff0, 10000, 2, 0, 0, 0, 0]] }
    ∧ size_coeff 0 0 = 0 ∧ size_coeff 0 10000 = 1
    ∧ ¬ (|(-coeff0)| = max |(0 : ℚ)| 1 * size_coeff 0 0
          ∧ |(-coeff0)| = max |(0 : ℚ)| 1 * size_coeff 0 10000) := by
  have h0 : size_coeff 0 0 = 0 := by
    norm_num [size_coeff, it_liminf_size, it_limsup_size, it_mean_size, it_stdev_size]
  have h1 : size_coeff 0 10000 = 1 := by
    norm_num [size_coeff, it_liminf_size, it_limsup_size, it_mean_size, it_stdev_size]
  refine ⟨?_, ?_, h0, h1, ?_⟩
  · simp [normalized_start, normalized_two_files, env.new, cache.new, env.set_curValues,
      env.update_windows_getting_eventual_rewards_accumulate, Outcome.bind, umap_find, umap_set,
      WindowElement.new]
  · simp [normalized_two_files, env.new, cache.new, env.set_curValues,
      env.look_for_invalidated_add_evict_accumulate, Outcome.bind, sweep_window, sweep_inner,
      WindowElement.new, sweep_coeff_add, resolved_reward, cache.hit_rate, cache.capacity,
      WindowElement.concat_with_next_values, uset_insert, umap_erase]
    norm_num
  · rw [h0, h1]
    intro h
    have := h.1.symm.trans h.2
    norm_num at this

/-- C6 (the code evaluated at a failing input).  From the fresh scenario: file 1
is registered at tick 0 and registered again at tick 5; the second call resolves
the decision and erases it (line 332) without removing the key; the sweep that
follows leaves file 1 mapped to the empty list. -/
theorem C6_empty_list_survives_sweep (fuel : Nat) (coeff0 : ℚ) :
    ((scenario_start.update_windows_getting_eventual_rewards_accumulate (fuel + 1) 1 0).bind
      fun e1 =>
        (({ e1 with
            _curRequest_from_start := 5 }).update_windows_getting_eventual_rewards_accumulate
          (fuel + 1) 1 0).bind
      fun e2 => e2.look_for_invalidated_add_evict_accumulate coeff0)
      = .ok { scenario_start with
              _curRequest_from_start := 5,
              _request_window_elements := [(1, [])],
              _cache := { scenario_start._cache with _daily_rewards_add := [-100] },
              _add_memory_vector := [[100, 1, 0, 0, 0, 0, 0, -100, 100, 2, 0, 0, 0, 0]] } := by
  simp [scenario_start, env.new, cache.new, env.set_curValues,
      env.update_windows_getting_eventual_rewards_accumulate, update_add_loop, size_coeff,
      env.look_for_invalidated_add_evict_accumulate, Outcome.bind, sweep_window, sweep_inner,
      WindowElement.new, resolved_reward, cache.hit_rate,
      cache.capacity, WindowElement.concat_with_next_values, umap_find, umap_set]
  norm_num

/-- C7.  In add mode with a 6-element feature vector, for a file `f` that is not
a key of the add window (and has no evict-window decision at or past the evict
horizon, as in every state the program reaches), the call returns; afterwards
`f` maps to exactly one pending decision with the current tick, the current
feature vector, reward 0 and the given action, the pending lists of all other
files of the add window are unchanged, and so is the add replay buffer. -/
theorem C7_register_new_add_decision (e : env) (f action : Int) (fuel : Nat)
    (hmode : e._adding_or_evicting = 0)
    (hcur : e._curValues.length = 6)
    (hnew : umap_find e._request_window_elements f = none)
    (hev : ∀ vec, umap_find e._eviction_window_elements f = some vec →
      ∀ w ∈ vec, e._curRequest_from_start - w.counter < e._time_span_evict) :
    ∃ e1, e.update_windows_getting_eventual_rewards_accumulate fuel f action = .ok e1 ∧
      umap_find e1._request_window_elements f =
        some [{ counter := e._curRequest_from_start, cur_values := e._curValues,
                next_values := [], reward := 0, action := action }] ∧
      (∀ g, g ≠ f →
        umap_find e1._request_window_elements g = umap_find e._request_window_elements g) ∧
      e1._add_memory_vector = e._add_memory_vector := by
  have hcv : ∃ size more, e._curValues = size :: more := by
    cases hc : e._curValues with
    | nil => simp [hc] at hcur
    | cons x xs => exact ⟨x, xs, rfl⟩
  obtain ⟨size, more, hcv⟩ := hcv
  refine ⟨{ e with
            _request_window_elements :=
              umap_set e._request_window_elements f
                [WindowElement.new e._curRequest_from_start e._curValues 0 action] },
          ?_, ?_, ?_, rfl⟩
  · cases hfe : umap_find e._eviction_window_elements f with
    | none =>
      simp [env.update_windows_getting_eventual_rewards_accumulate, hmode, hcv, hnew, hfe,
        Outcome.bind]
    | some vec =>
      simp only [env.update_windows_getting_eventual_rewards_accumulate, hmode, hcv, hnew, hfe,
        Outcome.bind, if_true, List.getElem?_cons_zero]
      rw [update_evict_scan_ok _ vec (by simpa using hev vec hfe)]
  · simp [umap_find_set_self, WindowElement.new]
  · intro g hg
    simp [umap_find_set_other _ _ _ _ hg]

/-- Witness of C7: file 1 registered in the fresh scenario. -/
theorem C7_witness :
    scenario_start._adding_or_evicting = 0
    ∧ scenario_start._curValues.length = 6
    ∧ umap_find scenario_start._request_window_elements 1 = none
    ∧ ∃ e1, scenario_start.update_windows_getting_eventual_rewards_accumulate 0 1 0 = .ok e1 ∧
      umap_find e1._request_window_elements 1 =
        some [{ counter := scenario_start._curRequest_from_start,
                cur_values := scenario_start._curValues,
                next_values := [], reward := 0, action := 0 }] ∧
      (∀ g, g ≠ 1 →
        umap_find e1._request_window_elements g
          = umap_find scenario_start._request_window_elements g) ∧
      e1._add_memory_vector = scenario_start._add_memory_vector :=
  ⟨by decide, by decide, by decide,
   C7_register_new_add_decision scenario_start 1 0 0 (by decide) (by decide) (by decide)
    (by intro vec h; simp [scenario_start, env.new, env.set_curValues, umap_find] at h)⟩

/-- C8 (the code evaluated on the states of the claim).  In evict mode, for a
file with no entry in the evict window, the call dereferences the end iterator
returned by `find` (line 386): its behaviour is undefined. -/
theorem C8_evict_mode_new_file_undefined (e : env) (f action : Int) (fuel : Nat)
    (hmode : e._adding_or_evicting = 1)
    (hnew : umap_find e._eviction_window_elements f = none) :
    e.update_windows_getting_eventual_rewards_accumulate fuel f action = .undefined := by
  simp [env.update_windows_getting_eventual_rewards_accumulate, hmode, hnew]

/-- Witness of C8: a fresh environment in evict mode. -/
theorem C8_witness :
    evict_mode_env._adding_or_evicting = 1
    ∧ umap_find evict_mode_env._eviction_window_elements 1 = none
    ∧ evict_mode_env.update_windows_getting_eventual_rewards_accumulate 10 1 1 = .undefined :=
  ⟨by decide, by decide,
   C8_evict_mode_new_file_undefined evict_mode_env 1 1 10 (by decide) (by decide)⟩

/-- C9.  For a pending decision with a 6-element snapshot `[v0, ..., v5]` (and
`next_values` empty, as the constructor leaves it), `concat_with_next_values`
returns a record of exactly 14 elements: the snapshot, the action, the reward,
then the next state, which repeats the size `v0`, the recency `v2` and the content
type `v3` and has frequency `v1 + 1`. -/
theorem C9_record_layout (w : WindowElement) (occupancy hit_rate : ℚ)
    (hcur : w.cur_values.length = 6) (hnext : w.next_values = []) :
    ∃ v0 v1 v2 v3 v4 v5 w1 rec,
      w.cur_values = [v0, v1, v2, v3, v4, v5] ∧
      w.concat_with_next_values occupancy hit_rate = .ok (w1, rec) ∧
      rec.length = 14 ∧
      rec = [v0, v1, v2, v3, v4, v5, (w.action : ℚ), w.reward,
             v0, v1 + 1, v2, v3, occupancy / 100, hit_rate] := by
  match hc : w.cur_values, hcur with
  | [v0, v1, v2, v3, v4, v5], _ =>
    refine ⟨v0, v1, v2, v3, v4, v5,
      { w with next_values := [v0, v1 + 1, v2, v3, occupancy / 100, hit_rate] }, _, rfl, ?_,
      ?_, rfl⟩
    · simp [WindowElement.concat_with_next_values, hc, hnext]
    · simp

/-- Witness of C9: the pending decision of the scenario. -/
theorem C9_witness :
    (WindowElement.new 0 [100, 1, 0, 0, 0, 0] 0 0).cur_values.length = 6
    ∧ (WindowElement.new 0 [100, 1, 0, 0, 0, 0] 0 0).next_values = []
    ∧ ∃ v0 v1 v2 v3 v4 v5 w1 rec,
      (WindowElement.new 0 [100, 1, 0, 0, 0, 0] 0 0).cur_values = [v0, v1, v2, v3, v4, v5] ∧
      (WindowElement.new 0 [100, 1, 0, 0, 0, 0] 0 0).concat_with_next_values 50 0
        = .ok (w1, rec) ∧
      rec.length = 14 ∧
      rec = [v0, v1, v2, v3, v4, v5, ((WindowElement.new 0 [100, 1, 0, 0, 0, 0] 0 0).action : ℚ),
             (WindowElement.new 0 [100, 1, 0, 0, 0, 0] 0 0).reward,
             v0, v1 + 1, v2, v3, 50 / 100, 0] :=
  ⟨by decide, by decide,
   C9_record_layout (WindowElement.new 0 [100, 1, 0, 0, 0, 0] 0 0) 50 0 (by decide) (by decide)⟩

/-- C10 as stated fails: with 500 of 1000 bytes occupied, `cache::capacity()` is
50, and the record the sweep emits holds 1/2 at index 12. -/
theorem C10_counterexample :
    half_full_env.look_for_invalidated_add_evict_accumulate 0 = .ok half_full_swept
    ∧ half_full_swept._add_memory_vector = [[100, 1, 0, 0, 0, 0, 0, -100, 100, 2, 0, 0, 1 / 2, 0]]
    ∧ half_full_env._cache.capacity = 50
    ∧ ([100, 1, 0, 0, 0, 0, 0, -100, 100, 2, 0, 0, 1 / 2, 0] : List ℚ)[12]?
        ≠ some half_full_env._cache.capacity := by
  have hcap : half_full_env._cache.capacity = 50 := by
    norm_num [half_full_env, scenario_registered, scenario_start, env.new, cache.new,
      env.set_curValues, cache.capacity]
  refine ⟨half_full_sweep 0, rfl, hcap, ?_⟩
  rw [hcap]
  norm_num

/-- C10, amended.  The sweep of a well-formed environment returns, and every
record it appends to the add buffer or to the evict buffer has 14 elements, holds
at index 12 the occupancy percentage `cache::capacity()` divided by 100 (the
occupied fraction), and at index 13 the value of `cache::hit_rate()`. -/
theorem C10_sweep_record_occupancy_fraction (e : env) (coeff0 : ℚ) (hwf : env_wf e) :
    ∃ e1, e.look_for_invalidated_add_evict_accumulate coeff0 = .ok e1 ∧
      ∃ recs_add recs_evict,
        e1._add_memory_vector = e._add_memory_vector ++ recs_add ∧
        e1._evict_memory_vector = e._evict_memory_vector ++ recs_evict ∧
        ∀ rec ∈ recs_add ++ recs_evict,
          rec.length = 14 ∧ rec[12]? = some (e._cache.capacity / 100) ∧
          ∃ hr, e._cache.hit_rate = .ok hr ∧ rec[13]? = some hr := by
  obtain ⟨e1, hsweep⟩ := sweep_returns e coeff0 hwf
  refine ⟨e1, hsweep, ?_⟩
  obtain ⟨hadd, hevict, _, _⟩ := hwf
  unfold env.look_for_invalidated_add_evict_accumulate at hsweep
  obtain ⟨a, ha, hsweep⟩ := Outcome.bind_eq_ok hsweep
  obtain ⟨b, hb, hsweep⟩ := Outcome.bind_eq_ok hsweep
  obtain ⟨recsA, hmemA, hallA⟩ := sweep_window_records _ _ _ _ _ _ ha
  obtain ⟨recsE, hmemE, hallE⟩ := sweep_window_records _ _ _ _ _ _ hb
  simp at hsweep
  subst hsweep
  refine ⟨recsA, recsE, hmemA, hmemE, ?_⟩
  intro rec hrec
  rcases List.mem_append.mp hrec with h | h
  · obtain ⟨w, size, c, ⟨p, hp, hw⟩, _, _, hem⟩ := hallA rec h
    exact emitted_from_layout e _ w rec hem (hadd p hp w hw).1 (hadd p hp w hw).2
  · obtain ⟨w, size, c, ⟨p, hp, hw⟩, _, _, hem⟩ := hallE rec h
    exact emitted_from_layout e _ w rec hem (hevict p hp w hw).1 (hevict p hp w hw).2

/-- Witness of the amended C10: the scenario swept at tick 6 with the cache half
full. -/
theorem C10_witness :
    env_wf half_full_env
    ∧ ∃ e1, half_full_env.look_for_invalidated_add_evict_accumulate 1 = .ok e1 ∧
      ∃ recs_add recs_evict,
        e1._add_memory_vector = half_full_env._add_memory_vector ++ recs_add ∧
        e1._evict_memory_vector = half_full_env._evict_memory_vector ++ recs_evict ∧
        ∀ rec ∈ recs_add ++ recs_evict,
          rec.length = 14 ∧ rec[12]? = some (half_full_env._cache.capacity / 100) ∧
          ∃ hr, half_full_env._cache.hit_rate = .ok hr ∧ rec[13]? = some hr :=
  ⟨half_full_env_wf, C10_sweep_record_occupancy_fraction half_full_env 1 half_full_env_wf⟩

/-! ## Auxiliary lemmas for C11 to C20 -/

theorem mem_purge_collect (e : env) :
    ∀ (l : List (Int × FileStats)) (acc : List Int) (k : Int),
      k ∈ purge_collect e l acc ↔
        k ∈ acc ∨ ∃ p ∈ l, p.1 = k ∧
          e._curRequest_from_start - p.2._last_request > e._purge_delta ∧
          p.1 ∉ e._cache._cached_files := by
  intro l
  induction l with
  | nil => intro acc k; simp [purge_collect]
  | cons elem rest ih =>
    intro acc k
    unfold purge_collect
    by_cases hc : e._curRequest_from_start - elem.2._last_request > e._purge_delta
        ∧ elem.1 ∉ e._cache._cached_files
    · rw [if_pos hc, ih, mem_uset_insert]
      constructor
      · rintro ((h | h) | ⟨p, hp, h⟩)
        · exact Or.inl h
        · exact Or.inr ⟨elem, List.mem_cons_self _ _, h.symm, hc.1, hc.2⟩
        · exact Or.inr ⟨p, List.mem_cons_of_mem _ hp, h⟩
      · rintro (h | ⟨p, hp, h⟩)
        · exact Or.inl (Or.inl h)
        · rcases List.mem_cons.mp hp with h1 | h1
          · subst h1
            exact Or.inl (Or.inr h.1.symm)
          · exact Or.inr ⟨p, h1, h⟩
    · rw [if_neg hc, ih]
      constructor
      · rintro (h | ⟨p, hp, h⟩)
        · exact Or.inl h
        · exact Or.inr ⟨p, List.mem_cons_of_mem _ hp, h⟩
      · rintro (h | ⟨p, hp, h⟩)
        · exact Or.inl h
        · rcases List.mem_cons.mp hp with h1 | h1
          · subst h1
            exact absurd ⟨h.2.1, h.2.2⟩ hc
          · exact Or.inr ⟨p, h1, h⟩

theorem random_batch_loop_draws {σ : Type} (G : Generator σ) (source : List (List ℚ))
    (hne : source ≠ []) :
    ∀ (n : Nat) (g : σ) (batch : List (List ℚ)),
      ∃ out g1, random_batch_loop G source source.length n g batch = .ok (batch ++ out, g1) ∧
        out.length = n ∧ ∀ r ∈ out, r ∈ source := by
  have hpos : 0 < source.length := List.length_pos.mpr hne
  intro n
  induction n with
  | zero =>
    intro g batch
    exact ⟨[], g, by simp [random_batch_loop], rfl, by simp⟩
  | succ k ih =>
    intro g batch
    have hlt : (G.rand g).1 % source.length < source.length := Nat.mod_lt _ hpos
    have hget : source[(G.rand g).1 % source.length]? =
        some source[(G.rand g).1 % source.length] := List.getElem?_eq_getElem hlt
    obtain ⟨out, g1, hrun, hlen, hmem⟩ :=
      ih (G.rand g).2 (batch ++ [source[(G.rand g).1 % source.length]])
    refine ⟨source[(G.rand g).1 % source.length] :: out, g1, ?_, by simp [hlen], ?_⟩
    · unfold random_batch_loop
      simp only [hget, if_neg (Nat.pos_iff_ne_zero.mp hpos)]
      rw [hrun]
      simp
    · intro r hr
      rcases List.mem_cons.mp hr with h | h
      · rw [h]; exact List.getElem_mem _
      · exact hmem r h

theorem mean_loop_present (term : FileStats → ℚ) (files : List (Int × FileStats)) :
    ∀ (l : List Int) (mean : ℚ) (counter : Int),
      (∀ f ∈ l, ∃ st, umap_find files f = some st) →
      mean_loop term l files mean counter =
        (files,
         mean + (l.map (fun f => term ((umap_find files f).getD FileStats.zero))).sum,
         counter + (l.length : Int)) := by
  intro l
  induction l with
  | nil => intro mean counter _; simp [mean_loop]
  | cons f rest ih =>
    intro mean counter h
    obtain ⟨st, hst⟩ := h f (List.mem_cons_self _ _)
    unfold mean_loop
    simp only [umap_index, hst]
    rw [ih _ _ (fun g hg => h g (List.mem_cons_of_mem _ hg))]
    simp [hst]
    constructor
    · ring
    · ring

theorem mean_of_present (c : cache) (term : FileStats → ℚ)
    (hstats : ∀ f ∈ c._cached_files, ∃ st, umap_find c._stats._files f = some st) :
    c.mean_of term =
      (c, if c._cached_files = [] then 0
          else arithmetic_mean (c._cached_files.map (fun f => term (stats_of c f)))) := by
  unfold cache.mean_of
  by_cases hnil : c._cached_files = []
  · simp [hnil]
  · have hlen : c._cached_files.length ≠ 0 := by
      intro h; exact hnil (List.length_eq_zero.mp h)
    rw [if_neg hlen, if_neg hnil, mean_loop_present term _ _ _ _ hstats]
    simp [arithmetic_mean, stats_of]

theorem means_cache_has_stats :
    ∀ f ∈ means_cache._cached_files, ∃ st, umap_find means_cache._stats._files f = some st := by
  intro f hf
  simp [means_cache, cache.new] at hf
  rcases hf with h | h
  · subst h; exact ⟨_, rfl⟩
  · subst h; exact ⟨_, rfl⟩

/-! ## Claims C11 to C20 -/

/-- C11.  With pairwise distinct keys in the stats store, `env::purge` keeps exactly
the entries that are cached or whose age `current tick - last_request` is at most
the purge delta, each with unchanged contents, and removes the others; the
cached-file set is unchanged.  In particular every entry of a cached file is
kept, and so is every entry whose age equals the purge delta. -/
theorem C11_purge_removes_exactly_old_uncached (e : env)
    (hkeys : (umap_keys e._cache._stats._files).Nodup) :
    e.purge._cache._stats._files =
        e._cache._stats._files.filter (fun p =>
          decide (¬ (p.1 ∉ e._cache._cached_files ∧
            e._curRequest_from_start - p.2._last_request > e._purge_delta)))
    ∧ e.purge._cache._cached_files = e._cache._cached_files
    ∧ (∀ p ∈ e._cache._stats._files, p.1 ∈ e._cache._cached_files →
        p ∈ e.purge._cache._stats._files)
    ∧ (∀ p ∈ e._cache._stats._files,
        e._curRequest_from_start - p.2._last_request = e._purge_delta →
        p ∈ e.purge._cache._stats._files) := by
  have hfilter : e.purge._cache._stats._files =
      e._cache._stats._files.filter (fun p =>
        decide (¬ (p.1 ∉ e._cache._cached_files ∧
          e._curRequest_from_start - p.2._last_request > e._purge_delta))) := by
    simp only [env.purge, foldl_umap_erase]
    apply List.filter_congr
    intro p hp
    have hiff : p.1 ∈ purge_collect e e._cache._stats._files [] ↔
        (p.1 ∉ e._cache._cached_files ∧
          e._curRequest_from_start - p.2._last_request > e._purge_delta) := by
      rw [mem_purge_collect]
      constructor
      · rintro (h | ⟨q, hq, hk, hold, hnc⟩)
        · simp at h
        · have hqp : q = p := List.inj_on_of_nodup_map hkeys hq hp hk
          subst hqp
          exact ⟨hnc, hold⟩
      · rintro ⟨hnc, hold⟩
        exact Or.inr ⟨p, hp, rfl, hold, hnc⟩
    by_cases h : p.1 ∈ purge_collect e e._cache._stats._files []
    · simp [h, hiff.mp h]
    · have h2 := mt hiff.mpr h
      simp [h, h2]
  refine ⟨hfilter, rfl, ?_, ?_⟩
  · intro p hp hc
    rw [hfilter, List.mem_filter]
    exact ⟨hp, by simp [hc]⟩
  · intro p hp hage
    rw [hfilter, List.mem_filter]
    exact ⟨hp, by simp [hage]⟩

/-- Witness of C11: of the three entries of `purge_env` only the old uncached one
is removed. -/
theorem C11_witness :
    (umap_keys purge_env._cache._stats._files).Nodup
    ∧ purge_env.purge._cache._stats._files =
        purge_env._cache._stats._files.filter (fun p =>
          decide (¬ (p.1 ∉ purge_env._cache._cached_files ∧
            purge_env._curRequest_from_start - p.2._last_request > purge_env._purge_delta)))
    ∧ purge_env.purge._cache._cached_files = purge_env._cache._cached_files
    ∧ (∀ p ∈ purge_env._cache._stats._files, p.1 ∈ purge_env._cache._cached_files →
        p ∈ purge_env.purge._cache._stats._files)
    ∧ (∀ p ∈ purge_env._cache._stats._files,
        purge_env._curRequest_from_start - p.2._last_request = purge_env._purge_delta →
        p ∈ purge_env.purge._cache._stats._files) :=
  ⟨by decide, C11_purge_removes_exactly_old_uncached purge_env (by decide)⟩

/-- C13 (the code evaluated on the failing inputs).  When both counters are
positive, `cache::hit_rate` returns 0, because `_hit / (_hit + _miss)` is an
integer division, while the ratio `hits / (hits + misses)` is not 0. -/
theorem C13_hit_rate_truncates (c : cache) (hh : 0 < c._hit) (hm : 0 < c._miss) :
    c.hit_rate = .ok 0
    ∧ (c._hit : ℚ) / ((c._hit : ℚ) + (c._miss : ℚ)) ≠ 0 := by
  constructor
  · unfold cache.hit_rate
    rw [if_pos (by omega), if_neg (by omega), Int.tdiv_eq_zero_of_lt (by omega) (by omega)]
    simp
  · have h1 : (0 : ℚ) < c._hit := by exact_mod_cast hh
    have h2 : (0 : ℚ) < c._miss := by exact_mod_cast hm
    positivity

/-- Witness of C13: one hit and one miss give 0, not 1/2. -/
theorem C13_witness :
    0 < one_hit_one_miss._hit ∧ 0 < one_hit_one_miss._miss
    ∧ one_hit_one_miss.hit_rate = .ok 0
    ∧ (one_hit_one_miss._hit : ℚ)
        / ((one_hit_one_miss._hit : ℚ) + (one_hit_one_miss._miss : ℚ)) ≠ 0 :=
  ⟨by decide, by decide, C13_hit_rate_truncates one_hit_one_miss (by decide) (by decide)⟩

/-- C14 (the code evaluated on the states of the claim).  On a miss with an action
other than 0, `cache::update_policy` commits the stats and does not insert the
file, but reaches the end of the function without a `return` statement: no
result is defined. -/
theorem C14_miss_without_add_returns_nothing (c : cache) (filename : Int)
    (file_stats : FileStats) (action : Int) (hact : action ≠ 0) :
    (c.update_policy filename file_stats false action).2 = none
    ∧ (c.update_policy filename file_stats false action).1._cached_files = c._cached_files
    ∧ umap_find (c.update_policy filename file_stats false action).1._stats._files filename
        = some file_stats := by
  simp [cache.update_policy, hact, umap_find_set_self]

/-- Witness of C14: a miss with action 1 on a fresh cache. -/
theorem C14_witness :
    (1 : Int) ≠ 0
    ∧ (cache.new.update_policy 1 FileStats.zero false 1).2 = none
    ∧ (cache.new.update_policy 1 FileStats.zero false 1).1._cached_files
        = cache.new._cached_files
    ∧ umap_find (cache.new.update_policy 1 FileStats.zero false 1).1._stats._files 1
        = some FileStats.zero :=
  ⟨by decide, C14_miss_without_add_returns_nothing cache.new 1 FileStats.zero 1 (by decide)⟩

/-- C15.  On a hit `cache::update_policy` returns false for every action and leaves
the cached-file set unchanged, and `cache::after_request` called with that result
leaves `_size` and `_written_data` as they were; on a miss with action 0 it
returns true and the file is in the cached-file set afterwards. -/
theorem C15_hit_never_adds (c : cache) (filename : Int) (file_stats fs : FileStats)
    (action : Int) :
    (c.update_policy filename file_stats true action).2 = some false
    ∧ (c.update_policy filename file_stats true action).1._cached_files = c._cached_files
    ∧ ((c.update_policy filename file_stats true action).1.after_request
          fs true false)._size = c._size
    ∧ ((c.update_policy filename file_stats true action).1.after_request
          fs true false)._written_data = c._written_data
    ∧ (c.update_policy filename file_stats false 0).2 = some true
    ∧ filename ∈ (c.update_policy filename file_stats false 0).1._cached_files := by
  refine ⟨?_, ?_, ?_, ?_, ?_, ?_⟩
  · simp [cache.update_policy]
  · simp [cache.update_policy]
  · simp [cache.update_policy, cache.after_request]
  · simp [cache.update_policy, cache.after_request]
  · simp [cache.update_policy]
  · simp [cache.update_policy, mem_uset_insert]

/-- C16.  The state after `cache::after_request` is the state before with: total
read bytes increased by the file size; the hit counter and the read-on-hit bytes
increased (by 1 and by the size) on a hit, the miss counter and the read-on-miss
bytes on a miss, the other pair unchanged; `_size` and `_written_data` increased
by the size when `added` is true; every other member unchanged. -/
theorem C16_after_request_frame (c : cache) (fileStats : FileStats) (hit added : Bool) :
    c.after_request fileStats hit added =
      { c with
        _read_data := c._read_data + fileStats._size,
        _hit := if hit = true then c._hit + 1 else c._hit,
        _miss := if hit = true then c._miss else c._miss + 1,
        _dailyReadOnHit :=
          if hit = true then c._dailyReadOnHit + fileStats._size else c._dailyReadOnHit,
        _dailyReadOnMiss :=
          if hit = true then c._dailyReadOnMiss else c._dailyReadOnMiss + fileStats._size,
        _size := if added = true then c._size + fileStats._size else c._size,
        _written_data :=
          if added = true then c._written_data + fileStats._size else c._written_data } := by
  cases hit <;> cases added <;> simp [cache.after_request]

/-- C17.  For an absent file `Stats::get_or_set` returns the fresh record (size, 0
hits, 0 misses, the tick, the datatype), stores it under the file and changes no
other key; for a present file it returns the stored record and leaves the store
unchanged; so a second call for the same file, with any arguments, returns the
record of the first call and changes nothing. -/
theorem C17_get_or_set (s : Stats) (f : Int) (size : ℚ) (datatype tick : Int) :
    (umap_find s._files f = none →
      (s.get_or_set f size datatype tick).2 =
          { _size := size, _hit := 0, _miss := 0, _last_request := tick,
            _datatype := datatype }
      ∧ umap_find (s.get_or_set f size datatype tick).1._files f =
          some { _size := size, _hit := 0, _miss := 0, _last_request := tick,
                 _datatype := datatype }
      ∧ ∀ g, g ≠ f →
          umap_find (s.get_or_set f size datatype tick).1._files g = umap_find s._files g)
    ∧ (∀ st, umap_find s._files f = some st → s.get_or_set f size datatype tick = (s, st))
    ∧ (∀ (size2 : ℚ) (datatype2 tick2 : Int),
        ((s.get_or_set f size datatype tick).1.get_or_set f size2 datatype2 tick2).2 =
            (s.get_or_set f size datatype tick).2
        ∧ ((s.get_or_set f size datatype tick).1.get_or_set f size2 datatype2 tick2).1 =
            (s.get_or_set f size datatype tick).1) := by
  have hpresent : ∀ (s1 : Stats) (st : FileStats) (sz : ℚ) (d t : Int),
      umap_find s1._files f = some st → s1.get_or_set f sz d t = (s1, st) := by
    intro s1 st sz d t h
    simp [Stats.get_or_set, umap_index, h]
  refine ⟨?_, fun st h => hpresent s st size datatype tick h, ?_⟩
  · intro h
    simp [Stats.get_or_set, h, umap_find_set_self]
    intro g hg
    exact umap_find_set_other _ _ _ _ hg
  · intro size2 datatype2 tick2
    cases h : umap_find s._files f with
    | none =>
      have h1 : s.get_or_set f size datatype tick =
          ({ _files := umap_set s._files f
              { _size := size, _hit := 0, _miss := 0, _last_request := tick,
                _datatype := datatype } },
           { _size := size, _hit := 0, _miss := 0, _last_request := tick,
             _datatype := datatype }) := by
        simp [Stats.get_or_set, h]
      rw [h1]
      rw [hpresent _ _ size2 datatype2 tick2 (umap_find_set_self _ _ _)]
      exact ⟨rfl, rfl⟩
    | some st =>
      rw [hpresent s st size datatype tick h, hpresent s st size2 datatype2 tick2 h]
      exact ⟨rfl, rfl⟩

/-- C18.  When every cached file has a stats entry, each of the three mean
functions returns the cache unchanged together with: 0 when no file is cached,
else the arithmetic mean over the cached files of `tick - last_request`, of
`hit + miss`, and of the stored size. -/
theorem C18_means_over_cached_files (c : cache) (tick : Int)
    (hstats : ∀ f ∈ c._cached_files, ∃ st, umap_find c._stats._files f = some st) :
    c._get_mean_recency tick =
      (c, if c._cached_files = [] then 0
          else arithmetic_mean (c._cached_files.map
            (fun f => ((tick - (stats_of c f)._last_request : Int) : ℚ))))
    ∧ c._get_mean_frequency tick =
      (c, if c._cached_files = [] then 0
          else arithmetic_mean (c._cached_files.map
            (fun f => (((stats_of c f)._hit + (stats_of c f)._miss : Int) : ℚ))))
    ∧ c._get_mean_size tick =
      (c, if c._cached_files = [] then 0
          else arithmetic_mean (c._cached_files.map (fun f => (stats_of c f)._size))) :=
  ⟨mean_of_present c _ hstats, mean_of_present c _ hstats, mean_of_present c _ hstats⟩

/-- Witness of C18: the cache `means_cache`. -/
theorem C18_witness :
    (∀ f ∈ means_cache._cached_files, ∃ st, umap_find means_cache._stats._files f = some st)
    ∧ means_cache._get_mean_recency 10 =
      (means_cache, if means_cache._cached_files = [] then 0
          else arithmetic_mean (means_cache._cached_files.map
            (fun f => ((10 - (stats_of means_cache f)._last_request : Int) : ℚ))))
    ∧ means_cache._get_mean_frequency 10 =
      (means_cache, if means_cache._cached_files = [] then 0
          else arithmetic_mean (means_cache._cached_files.map
            (fun f => (((stats_of means_cache f)._hit + (stats_of means_cache f)._miss : Int)
              : ℚ))))
    ∧ means_cache._get_mean_size 10 =
      (means_cache, if means_cache._cached_files = [] then 0
          else arithmetic_mean (means_cache._cached_files.map
            (fun f => (stats_of means_cache f)._size))) :=
  ⟨means_cache_has_stats, C18_means_over_cached_files means_cache 10 means_cache_has_stats⟩

/-- C19 as stated fails: in the scenario file 7 has no stats entry, and
`env::get_stats` returns the zero record, changes the stats store, and leaves
`env::check` true for the file. -/
theorem C19_counterexample :
    scenario_start.check 7 = false
    ∧ (scenario_start.get_stats 7).2 = FileStats.zero
    ∧ (scenario_start.get_stats 7).1._cache._stats._files ≠ scenario_start._cache._stats._files
    ∧ (scenario_start.get_stats 7).1.check 7 = true := by
  decide

/-- C19, amended.  For a file with no entry in the stats store `env::get_stats`
returns the value-initialised record (all members 0) and stores it under the
file, so that `env::check` is true afterwards; the entries of all other files
are unchanged. -/
theorem C19_get_stats_inserts_zero_record (e : env) (f : Int)
    (habsent : umap_find e._cache._stats._files f = none) :
    (e.get_stats f).2 = FileStats.zero
    ∧ (e.get_stats f).1.check f = true
    ∧ (e.get_stats f).1._cache._stats._files =
        umap_set e._cache._stats._files f FileStats.zero
    ∧ ∀ g, g ≠ f →
        umap_find (e.get_stats f).1._cache._stats._files g
          = umap_find e._cache._stats._files g := by
  simp [env.get_stats, umap_index, habsent, env.check, umap_find_set_self]
  intro g hg
  exact umap_find_set_other _ _ _ _ hg

/-- Witness of the amended C19: file 7 in the scenario. -/
theorem C19_witness :
    umap_find scenario_start._cache._stats._files 7 = none
    ∧ (scenario_start.get_stats 7).2 = FileStats.zero
    ∧ (scenario_start.get_stats 7).1.check 7 = true
    ∧ (scenario_start.get_stats 7).1._cache._stats._files =
        umap_set scenario_start._cache._stats._files 7 FileStats.zero
    ∧ ∀ g, g ≠ 7 →
        umap_find (scenario_start.get_stats 7).1._cache._stats._files g
          = umap_find scenario_start._cache._stats._files g :=
  ⟨by decide, C19_get_stats_inserts_zero_record scenario_start 7 (by decide)⟩

/-- C20 (the code evaluated on the states of the claim).  In add mode with a
6-element feature vector and a positive add horizon, when the pending add
decisions of the file are all younger than the horizon, no number of loop steps
makes the call return. -/
theorem C20_update_never_returns (e : env) (f action : Int) (vec : List WindowElement)
    (hmode : e._adding_or_evicting = 0)
    (hcur : e._curValues.length = 6)
    (hH : 0 < e._time_span_add)
    (hfind : umap_find e._request_window_elements f = some vec)
    (hne : vec ≠ [])
    (hyoung : ∀ w ∈ vec, e._curRequest_from_start - w.counter < e._time_span_add) :
    ∀ (fuel : Nat) (e1 : env),
      e.update_windows_getting_eventual_rewards_accumulate fuel f action ≠ .ok e1 := by
  intro fuel e1
  have hcv : ∃ size more, e._curValues = size :: more := by
    cases hc : e._curValues with
    | nil => simp [hc] at hcur
    | cons x xs => exact ⟨x, xs, rfl⟩
  obtain ⟨size, more, hcv⟩ := hcv
  have hloop := update_add_loop_unfinished e action (size_coeff e._output_activation size) hH
    fuel 0 vec e._cache._daily_rewards_add e._add_memory_vector
    (List.length_pos.mpr hne)
    (fun j w _ hj => hyoung w (List.getElem?_mem hj))
  simp [env.update_windows_getting_eventual_rewards_accumulate, hmode, hcv, hfind, hloop,
    Outcome.bind]

/-- Witness of C20: the scenario with file 1 touched again at tick 3; the file has
one pending decision. -/
theorem C20_witness :
    (0 : Int) < ({ scenario_registered with _curRequest_from_start := 3 } : env)._time_span_add
    ∧ umap_find
        ({ scenario_registered with _curRequest_from_start := 3 } : env)._request_window_elements 1
        = some [WindowElement.new 0 [100, 1, 0, 0, 0, 0] 0 0]
    ∧ ∀ (fuel : Nat) (e1 : env),
        ({ scenario_registered with
            _curRequest_from_start := 3 }).update_windows_getting_eventual_rewards_accumulate
          fuel 1 0 ≠ .ok e1 :=
  ⟨by decide, by decide,
   C20_update_never_returns { scenario_registered with _curRequest_from_start := 3 } 1 0
    [WindowElement.new 0 [100, 1, 0, 0, 0, 0] 0 0]
    (by decide) (by decide) (by decide) (by decide) (by decide) (by decide)⟩

/-! ## Auxiliary lemmas for C21 to C25 -/

theorem umap_find_filter_keys {β : Type} (ks : List Int) (f : Int) (hf : f ∉ ks) :
    ∀ m : List (Int × β),
      umap_find (m.filter (fun p => decide (p.1 ∉ ks))) f = umap_find m f := by
  intro m
  induction m with
  | nil => rfl
  | cons p rest ih =>
    obtain ⟨k, v⟩ := p
    by_cases hk : k ∈ ks
    · have hkf : k ≠ f := fun h => hf (h ▸ hk)
      rw [List.filter_cons_of_neg (by simp [hk]), ih]
      simp [umap_find, hkf]
    · rw [List.filter_cons_of_pos (by simp [hk])]
      by_cases hkf : k = f
      · simp [umap_find, hkf]
      · simp only [umap_find, if_neg hkf]
        exact ih

theorem purge_find_cached (e : env) (f : Int) (hf : f ∈ e._cache._cached_files) :
    umap_find e.purge._cache._stats._files f = umap_find e._cache._stats._files f := by
  have hnot : f ∉ purge_collect e e._cache._stats._files [] := by
    intro h
    rcases (mem_purge_collect e _ _ _).mp h with h | ⟨p, _, hk, _, hnc⟩
    · simp at h
    · exact hnc (hk ▸ hf)
  simp only [env.purge, foldl_umap_erase]
  exact umap_find_filter_keys _ f hnot _

theorem request_cache (e : env) (f : Int) (size : ℚ) (datatype request action : Int) :
    ∃ st1 : FileStats,
      (∀ g, g ≠ f →
        umap_find (e.request f size datatype request action)._cache._stats._files g
          = umap_find e._cache._stats._files g) ∧
      umap_find (e.request f size datatype request action)._cache._stats._files f = some st1 ∧
      (∀ st, umap_find e._cache._stats._files f = some st → st1._size = st._size) ∧
      (f ∈ e._cache._cached_files →
        (e.request f size datatype request action)._cache._cached_files
            = e._cache._cached_files ∧
        (e.request f size datatype request action)._cache._size = e._cache._size) ∧
      (f ∉ e._cache._cached_files → action = 0 →
        (e.request f size datatype request action)._cache._cached_files
            = e._cache._cached_files ++ [f] ∧
        (e.request f size datatype request action)._cache._size
            = e._cache._size + st1._size) ∧
      (f ∉ e._cache._cached_files → action ≠ 0 →
        (e.request f size datatype request action)._cache._cached_files
            = e._cache._cached_files ∧
        (e.request f size datatype request action)._cache._size = e._cache._size) := by
  by_cases hhit : f ∈ e._cache._cached_files
  · cases hfind : umap_find e._cache._stats._files f with
    | none =>
      refine ⟨{ _size := size, _hit := 0 + 1, _miss := 0, _last_request := request,
                _datatype := datatype }, ?_, ?_, ?_, ?_, ?_, ?_⟩
      · intro g hg
        simp [env.request, env.check_in_cache, cache.before_request, Stats.get_or_set,
          cache.update_policy, cache.after_request, hhit, hfind, umap_find_set_other _ _ _ _ hg]
      · simp [env.request, env.check_in_cache, cache.before_request, Stats.get_or_set,
          cache.update_policy, cache.after_request, hhit, hfind, umap_find_set_self]
      · intro st h; simp at h
      · intro _
        simp [env.request, env.check_in_cache, cache.before_request, Stats.get_or_set,
          cache.update_policy, cache.after_request, hhit, hfind]
      · intro h; exact absurd hhit h
      · intro h; exact absurd hhit h
    | some st =>
      refine ⟨{ st with _hit := st._hit + 1 }, ?_, ?_, ?_, ?_, ?_, ?_⟩
      · intro g hg
        simp [env.request, env.check_in_cache, cache.before_request, Stats.get_or_set,
          umap_index, cache.update_policy, cache.after_request, hhit, hfind,
          umap_find_set_other _ _ _ _ hg]
      · simp [env.request, env.check_in_cache, cache.before_request, Stats.get_or_set,
          umap_index, cache.update_policy, cache.after_request, hhit, hfind,
          umap_find_set_self]
      · intro st2 h
        simp at h
        rw [h]
      · intro _
        simp [env.request, env.check_in_cache, cache.before_request, Stats.get_or_set,
          umap_index, cache.update_policy, cache.after_request, hhit, hfind]
      · intro h; exact absurd hhit h
      · intro h; exact absurd hhit h
  · have hins : uset_insert e._cache._cached_files f = e._cache._cached_files ++ [f] := by
      simp [uset_insert, hhit]
    cases hfind : umap_find e._cache._stats._files f with
    | none =>
      refine ⟨{ _size := size, _hit := 0, _miss := 0 + 1, _last_request := request,
                _datatype := datatype }, ?_, ?_, ?_, ?_, ?_, ?_⟩
      · intro g hg
        by_cases ha : action = 0
        · simp [env.request, env.check_in_cache, cache.before_request, Stats.get_or_set,
            cache.update_policy, cache.after_request, hhit, hfind, ha,
            umap_find_set_other _ _ _ _ hg]
        · simp [env.request, env.check_in_cache, cache.before_request, Stats.get_or_set,
            cache.update_policy, cache.after_request, hhit, hfind, ha,
            umap_find_set_other _ _ _ _ hg]
      · by_cases ha : action = 0
        · simp [env.request, env.check_in_cache, cache.before_request, Stats.get_or_set,
            cache.update_policy, cache.after_request, hhit, hfind, ha, umap_find_set_self]
        · simp [env.request, env.check_in_cache, cache.before_request, Stats.get_or_set,
            cache.update_policy, cache.after_request, hhit, hfind, ha, umap_find_set_self]
      · intro st h; simp at h
      · intro h; exact absurd h hhit
      · intro _ ha
        simp [env.request, env.check_in_cache, cache.before_request, Stats.get_or_set,
          cache.update_policy, cache.after_request, hhit, hfind, ha, hins]
      · intro _ ha
        simp [env.request, env.check_in_cache, cache.before_request, Stats.get_or_set,
          cache.update_policy, cache.after_request, hhit, hfind, ha]
    | some st =>
      refine ⟨{ st with _miss := st._miss + 1 }, ?_, ?_, ?_, ?_, ?_, ?_⟩
      · intro g hg
        by_cases ha : action = 0
        · simp [env.request, env.check_in_cache, cache.before_request, Stats.get_or_set,
            umap_index, cache.update_policy, cache.after_request, hhit, hfind, ha,
            umap_find_set_other _ _ _ _ hg]
        · simp [env.request, env.check_in_cache, cache.before_request, Stats.get_or_set,
            umap_index, cache.update_policy, cache.after_request, hhit, hfind, ha,
            umap_find_set_other _ _ _ _ hg]
      · by_cases ha : action = 0
        · simp [env.request, env.check_in_cache, cache.before_request, Stats.get_or_set,
            umap_index, cache.update_policy, cache.after_request, hhit, hfind, ha,
            umap_find_set_self]
        · simp [env.request, env.check_in_cache, cache.before_request, Stats.get_or_set,
            umap_index, cache.update_policy, cache.after_request, hhit, hfind, ha,
            umap_find_set_self]
      · intro st2 h
        simp at h
        rw [h]
      · intro h; exact absurd h hhit
      · intro _ ha
        simp [env.request, env.check_in_cache, cache.before_request, Stats.get_or_set,
          umap_index, cache.update_policy, cache.after_request, hhit, hfind, ha, hins]
      · intro _ ha
        simp [env.request, env.check_in_cache, cache.before_request, Stats.get_or_set,
          umap_index, cache.update_policy, cache.after_request, hhit, hfind, ha]

theorem request_keeps_cache_inv (e : env) (f : Int) (size : ℚ) (datatype request action : Int)
    (hinv : cache_inv e._cache) :
    cache_inv (e.request f size datatype request action)._cache := by
  obtain ⟨hstats, hsum⟩ := hinv
  obtain ⟨st1, hother, hself, hsize, hhitc, hadd, hnoadd⟩ :=
    request_cache e f size datatype request action
  have hpoint : ∀ g ∈ e._cache._cached_files,
      (stats_of (e.request f size datatype request action)._cache g)._size
        = (stats_of e._cache g)._size := by
    intro g hg
    by_cases hgf : g = f
    · subst hgf
      obtain ⟨st, hst⟩ := hstats g hg
      simp [stats_of, hself, hst, hsize st hst]
    · simp [stats_of, hother g hgf]
  have hkept : ∀ g ∈ e._cache._cached_files,
      ∃ st, umap_find (e.request f size datatype request action)._cache._stats._files g
        = some st := by
    intro g hg
    by_cases hgf : g = f
    · subst hgf; exact ⟨st1, hself⟩
    · rw [hother g hgf]; exact hstats g hg
  by_cases hhit : f ∈ e._cache._cached_files
  · obtain ⟨hc, hs⟩ := hhitc hhit
    refine ⟨?_, ?_⟩
    · rw [hc]; exact hkept
    · rw [hc, hs, hsum]
      exact congrArg List.sum (List.map_congr_left hpoint).symm
  · by_cases ha : action = 0
    · obtain ⟨hc, hs⟩ := hadd hhit ha
      refine ⟨?_, ?_⟩
      · rw [hc]
        intro g hg
        rcases List.mem_append.mp hg with h | h
        · exact hkept g h
        · simp at h
          subst h
          exact ⟨st1, hself⟩
      · rw [hc, hs, hsum, List.map_append, List.sum_append,
          List.map_congr_left hpoint]
        simp [stats_of, hself]
    · obtain ⟨hc, hs⟩ := hnoadd hhit ha
      refine ⟨?_, ?_⟩
      · rw [hc]; exact hkept
      · rw [hc, hs, hsum]
        exact congrArg List.sum (List.map_congr_left hpoint).symm

theorem purge_keeps_cache_inv (e : env) (hinv : cache_inv e._cache) :
    cache_inv e.purge._cache := by
  obtain ⟨hstats, hsum⟩ := hinv
  refine ⟨?_, ?_⟩
  · intro f hf
    have hf2 : f ∈ e._cache._cached_files := hf
    rw [purge_find_cached e f hf2]
    exact hstats f hf2
  · have hpoint : ∀ g ∈ e._cache._cached_files,
        (stats_of e.purge._cache g)._size = (stats_of e._cache g)._size := by
      intro g hg
      simp [stats_of, purge_find_cached e g hg]
    have hs : e.purge._cache._size = e._cache._size := rfl
    have hc : e.purge._cache._cached_files = e._cache._cached_files := rfl
    rw [hs, hc, hsum]
    exact congrArg List.sum (List.map_congr_left hpoint).symm

theorem run_cache_ops_keeps_cache_inv (ops : List CacheOp) :
    ∀ e : env, cache_inv e._cache → cache_inv (e.run_cache_ops ops)._cache := by
  induction ops with
  | nil => intro e h; exact h
  | cons op rest ih =>
    intro e h
    simp only [env.run_cache_ops, List.foldl_cons]
    apply ih
    cases op with
    | request f size datatype request action =>
      exact request_keeps_cache_inv e f size datatype request action h
    | purge tick purge_delta =>
      exact purge_keeps_cache_inv
        { e with _curRequest_from_start := tick, _purge_delta := purge_delta } h

theorem update_keeps_empty_evict_window (fuel : Nat) (e e1 : env) (f action : Int)
    (hwin : e._eviction_window_elements = [])
    (hrun : e.update_windows_getting_eventual_rewards_accumulate fuel f action = .ok e1) :
    e1._eviction_window_elements = [] ∧ e1._evict_memory_vector = e._evict_memory_vector := by
  unfold env.update_windows_getting_eventual_rewards_accumulate at hrun
  by_cases hmode : e._adding_or_evicting = 0
  · rw [if_pos hmode] at hrun
    cases hcv : e._curValues[0]? with
    | none => simp [hcv] at hrun
    | some size =>
      simp only [hcv] at hrun
      obtain ⟨e2, hadded, hrest⟩ := Outcome.bind_eq_ok hrun
      have he2 : e2._eviction_window_elements = [] ∧
          e2._evict_memory_vector = e._evict_memory_vector := by
        cases hfind : umap_find e._request_window_elements f with
        | none =>
          simp only [hfind] at hadded
          injection hadded with h
          subst h
          exact ⟨hwin, rfl⟩
        | some vec =>
          simp only [hfind] at hadded
          obtain ⟨res, _, h⟩ := Outcome.bind_eq_ok hadded
          injection h with h
          subst h
          exact ⟨hwin, rfl⟩
      rw [he2.1] at hrest
      simp [umap_find] at hrest
      subst hrest
      exact he2
  · rw [if_neg hmode] at hrun
    by_cases hmode1 : e._adding_or_evicting = 1
    · rw [if_pos hmode1] at hrun
      simp [hwin, umap_find] at hrun
    · rw [if_neg hmode1] at hrun
      injection hrun with h
      subst h
      exact ⟨hwin, rfl⟩

theorem sweep_keeps_empty_evict_window (e e1 : env) (coeff0 : ℚ)
    (hwin : e._eviction_window_elements = [])
    (hrun : e.look_for_invalidated_add_evict_accumulate coeff0 = .ok e1) :
    e1._eviction_window_elements = [] ∧ e1._evict_memory_vector = e._evict_memory_vector := by
  unfold env.look_for_invalidated_add_evict_accumulate at hrun
  obtain ⟨a, _, hrun⟩ := Outcome.bind_eq_ok hrun
  rw [hwin] at hrun
  simp only [sweep_window, Outcome.bind] at hrun
  injection hrun with h
  subst h
  simp [foldl_umap_erase]

theorem run_op_keeps_empty_evict_window (e e1 : env) (op : EnvOp)
    (hwin : e._eviction_window_elements = []) (hmem : e._evict_memory_vector = [])
    (hrun : e.run_op op = .ok e1) :
    e1._eviction_window_elements = [] ∧ e1._evict_memory_vector = [] := by
  cases op with
  | update fuel f action =>
    have h := update_keeps_empty_evict_window fuel e e1 f action hwin hrun
    exact ⟨h.1, h.2.trans hmem⟩
  | sweep coeff0 =>
    have h := sweep_keeps_empty_evict_window e e1 coeff0 hwin hrun
    exact ⟨h.1, h.2.trans hmem⟩
  | purge =>
    simp only [env.run_op] at hrun
    injection hrun with h
    subst h
    exact ⟨hwin, hmem⟩
  | set_curValues a b c d x y =>
    simp only [env.run_op] at hrun
    injection hrun with h
    subst h
    exact ⟨hwin, hmem⟩
  | assign_curValues v =>
    simp only [env.run_op] at hrun
    injection hrun with h
    subst h
    exact ⟨hwin, hmem⟩
  | assign_adding_or_evicting m =>
    simp only [env.run_op] at hrun
    injection hrun with h
    subst h
    exact ⟨hwin, hmem⟩
  | assign_curRequest_from_start t =>
    simp only [env.run_op] at hrun
    injection hrun with h
    subst h
    exact ⟨hwin, hmem⟩
  | assign_curRequest t =>
    simp only [env.run_op] at hrun
    injection hrun with h
    subst h
    exact ⟨hwin, hmem⟩
  | assign_cached_files_index i =>
    simp only [env.run_op] at hrun
    injection hrun with h
    subst h
    exact ⟨hwin, hmem⟩
  | assign_cache c =>
    simp only [env.run_op] at hrun
    injection hrun with h
    subst h
    exact ⟨hwin, hmem⟩

theorem run_ops_keeps_empty_evict_window (ops : List EnvOp) :
    ∀ (e e1 : env), e._eviction_window_elements = [] → e._evict_memory_vector = [] →
      e.run_ops ops = .ok e1 →
      e1._eviction_window_elements = [] ∧ e1._evict_memory_vector = [] := by
  induction ops with
  | nil =>
    intro e e1 hwin hmem hrun
    simp only [env.run_ops] at hrun
    injection hrun with h
    subst h
    exact ⟨hwin, hmem⟩
  | cons op rest ih =>
    intro e e1 hwin hmem hrun
    simp only [env.run_ops] at hrun
    obtain ⟨e2, hop, hrest⟩ := Outcome.bind_eq_ok hrun
    have h2 := run_op_keeps_empty_evict_window e e2 op hwin hmem hop
    exact ih e2 e1 h2.1 h2.2 hrest

theorem sample_ops_run :
    (env.new 5 5 10 "linear" 1000 0).run_ops sample_ops =
      .ok { scenario_start with
            _curRequest_from_start := 6,
            _adding_or_evicting := 2,
            _cache := { scenario_start._cache with _daily_rewards_add := [-100] },
            _add_memory_vector := [[100, 1, 0, 0, 0, 0, 0, -100, 100, 2, 0, 0, 0, 0]] } := by
  simp [sample_ops, scenario_start, env.run_ops, env.run_op, env.new, cache.new,
    env.set_curValues, env.purge, purge_collect,
    env.update_windows_getting_eventual_rewards_accumulate, umap_find, umap_set,
    env.look_for_invalidated_add_evict_accumulate, Outcome.bind, sweep_window, sweep_inner,
    WindowElement.new, sweep_coeff_add, resolved_reward, cache.hit_rate, cache.capacity,
    WindowElement.concat_with_next_values, uset_insert, umap_erase]
  norm_num

/-! ## Claims C21 to C25 -/

/-- C21 as stated fails: with the counting generator and two records in the add
buffer, the first call (made in any state, here 5) draws index 0 and leaves the
generator in state 1; the second call, made in state 1, draws index 0 again and
returns the same batch, whereas the draw that continues the sequence from state
1 is index 1 and gives the other record. -/
theorem C21_counterexample :
    two_record_env.get_random_batch_from counting_generator 5 1
      = .ok ([[100, 1, 0, 0, 0, 0, 0, -100, 100, 2, 0, 0, 0, 0]], 1)
    ∧ two_record_env.get_random_batch_from counting_generator 1 1
      = .ok ([[100, 1, 0, 0, 0, 0, 0, -100, 100, 2, 0, 0, 0, 0]], 1)
    ∧ random_batch_loop counting_generator two_record_env._add_memory_vector
        two_record_env._add_memory_vector.length 1 1 []
      = .ok ([[7, 1, 0, 0, 0, 0, 0, -7, 7, 2, 0, 0, 0, 0]], 2)
    ∧ two_record_env.get_random_batch_from counting_generator 1 1
      ≠ random_batch_loop counting_generator two_record_env._add_memory_vector
          two_record_env._add_memory_vector.length 1 1 [] := by
  decide

/-- C21, amended.  `env::get_random_batch` seeds the generator with `_seed` at
the start of every call: its result does not depend on the state the generator
was left in, it is the result of the call made in the freshly seeded state, in
add mode the draws are the first draws after seeding, and a second call with the
same `n`, made in the state the first call left, returns the same batch and
leaves the same state. -/
theorem C21_every_call_reseeds (σ : Type) (G : Generator σ) (e : env) (g : σ) (n : Int) :
    e.get_random_batch_from G g n = e.get_random_batch_from G (G.srand e._seed) n
    ∧ e.get_random_batch_from G g n = e.get_random_batch G n
    ∧ (e._adding_or_evicting = 0 →
        e.get_random_batch_from G g n =
          random_batch_loop G e._add_memory_vector e._add_memory_vector.length n.toNat
            (G.srand e._seed) [])
    ∧ ∀ batch g1, e.get_random_batch_from G g n = .ok (batch, g1) →
        e.get_random_batch_from G g1 n = .ok (batch, g1) := by
  refine ⟨rfl, rfl, ?_, fun batch g1 h => h⟩
  intro hmode
  simp only [env.get_random_batch_from, srand_call, hmode, if_true]
  cases random_batch_loop G e._add_memory_vector e._add_memory_vector.length n.toNat
      (G.srand e._seed) [] <;> simp [Outcome.bind]

/-- C24.  Starting from a cache with `_size = 0` and no cached files (whatever the
stats store holds, in particular when it is empty), after every sequence of
requests, each processed by `before_request`, `update_policy` and `after_request`
with `hit` true exactly when the file is cached, interleaved with calls of
`env::purge` at any tick and purge delta, every cached file has a stats entry
and `_size` is the sum of the stored sizes of the cached files. -/
theorem C24_size_is_sum_of_cached_sizes (e0 : env) (ops : List CacheOp)
    (hsize : e0._cache._size = 0) (hcached : e0._cache._cached_files = []) :
    (∀ f ∈ (e0.run_cache_ops ops)._cache._cached_files,
        ∃ st, umap_find (e0.run_cache_ops ops)._cache._stats._files f = some st)
    ∧ (e0.run_cache_ops ops)._cache._size =
        ((e0.run_cache_ops ops)._cache._cached_files.map
          (fun f => (stats_of (e0.run_cache_ops ops)._cache f)._size)).sum := by
  have h0 : cache_inv e0._cache := by
    refine ⟨?_, ?_⟩
    · intro f hf
      rw [hcached] at hf
      simp at hf
    · rw [hsize, hcached]
      rfl
  exact run_cache_ops_keeps_cache_inv ops e0 h0

/-- Witness of C24: the request sequence `sample_requests` on a fresh
environment. -/
theorem C24_witness :
    (env.new 5 5 10 "linear" 1000 0)._cache._size = 0
    ∧ (env.new 5 5 10 "linear" 1000 0)._cache._cached_files = []
    ∧ (∀ f ∈ ((env.new 5 5 10 "linear" 1000 0).run_cache_ops sample_requests)._cache._cached_files,
        ∃ st, umap_find
          ((env.new 5 5 10 "linear" 1000 0).run_cache_ops sample_requests)._cache._stats._files f
            = some st)
    ∧ ((env.new 5 5 10 "linear" 1000 0).run_cache_ops sample_requests)._cache._size =
        (((env.new 5 5 10 "linear" 1000 0).run_cache_ops sample_requests)._cache._cached_files.map
          (fun f =>
            (stats_of ((env.new 5 5 10 "linear" 1000 0).run_cache_ops sample_requests)._cache
              f)._size)).sum :=
  ⟨rfl, rfl, C24_size_is_sum_of_cached_sizes (env.new 5 5 10 "linear" 1000 0) sample_requests
    rfl rfl⟩

/-- C25.  Starting from a freshly constructed environment, after every sequence
of driver steps (calls of `update_windows_getting_eventual_rewards_accumulate` in
any mode, of `look_for_invalidated_add_evict_accumulate` and of `purge`, and
assignments to the writable members) in which every call returns, the evict
window has no entry (hence no key) and the evict replay buffer is empty. -/
theorem C25_evict_window_stays_empty (time_span_add time_span_evict purge_delta : Int)
    (output_activation : String) (cache_size : ℚ) (seed : Int) (ops : List EnvOp) (e : env)
    (hrun : (env.new time_span_add time_span_evict purge_delta output_activation cache_size
        seed).run_ops ops = .ok e) :
    e._eviction_window_elements = [] ∧ umap_keys e._eviction_window_elements = []
    ∧ e._evict_memory_vector = [] := by
  have h := run_ops_keeps_empty_evict_window ops _ e rfl rfl hrun
  exact ⟨h.1, by rw [h.1]; rfl, h.2⟩

/-- Witness of C25: the driver sequence `sample_ops`, which registers a decision,
sweeps it into the add buffer and purges. -/
theorem C25_witness :
    (env.new 5 5 10 "linear" 1000 0).run_ops sample_ops =
      .ok { scenario_start with
            _curRequest_from_start := 6,
            _adding_or_evicting := 2,
            _cache := { scenario_start._cache with _daily_rewards_add := [-100] },
            _add_memory_vector := [[100, 1, 0, 0, 0, 0, 0, -100, 100, 2, 0, 0, 0, 0]] }
    ∧ ({ scenario_start with
          _curRequest_from_start := 6,
          _adding_or_evicting := 2,
          _cache := { scenario_start._cache with _daily_rewards_add := [-100] },
          _add_memory_vector := [[100, 1, 0, 0, 0, 0, 0, -100, 100, 2, 0, 0, 0, 0]] }
          : env)._eviction_window_elements = []
    ∧ umap_keys ({ scenario_start with
          _curRequest_from_start := 6,
          _adding_or_evicting := 2,
          _cache := { scenario_start._cache with _daily_rewards_add := [-100] },
          _add_memory_vector := [[100, 1, 0, 0, 0, 0, 0, -100, 100, 2, 0, 0, 0, 0]] }
          : env)._eviction_window_elements = []
    ∧ ({ scenario_start with
          _curRequest_from_start := 6,
          _adding_or_evicting := 2,
          _cache := { scenario_start._cache with _daily_rewards_add := [-100] },
          _add_memory_vector := [[100, 1, 0, 0, 0, 0, 0, -100, 100, 2, 0, 0, 0, 0]] }
          : env)._evict_memory_vector = [] :=
  ⟨sample_ops_run,
   C25_evict_window_stays_empty 5 5 10 "linear" 1000 0 sample_ops _ sample_ops_run⟩

end SmartCache
